import Mathlib

/-!
Shallow embedding of the `amtt` translator core and theorems about its
specification claims.

Embedded source files:
* `amtt/translator/entities.py` — `SystemElement`, `ElementLogic`, `FailureModel`
* `amtt/translator/ir.py` — index building, raw input graph, components-graph
  resolution (template/sharing expansion), failures graph, object assignment
* `amtt/exporter/isograph/rbd.py` — compound-block internal-diagram synthesis
  (`generate_internal_graph` and its helpers), finalization, serialization

Representation notes, referenced throughout:
* Python `networkx.DiGraph` (version 1.x, as used by the source) keeps nodes
  and adjacency in insertion-ordered dicts; it is embedded as a structure of
  an insertion-ordered node list (with an attribute per node) plus an
  insertion-ordered edge list, with duplicate-free insertion.
* Component-graph node labels are dot-separated strings in the source; they
  are embedded as their token lists (`List String`, the result of splitting
  at dots), which the source itself produces and consumes via
  `str.split('.')` / `'.'.join`.  The two views are in bijection.
* Machine integers: all counts in the source are small non-negative Python
  ints; they are embedded as `Nat` (Python ints do not overflow).
* Fallible code (uncaught `raise`, `KeyError`, `StopIteration`,
  `AttributeError`, `TypeError`) is embedded in `Except TransError`.
-/

namespace Amtt

/-! Executable string helpers.  Core `String.toLower` / `String.splitOn` /
`String.toNat?` are defined by well-founded recursion on byte positions and
do not reduce inside the kernel, so the Python string operations used by the
source are re-implemented here on character lists (all separators in the
source are single characters, so `str.split(sep)` semantics coincide). -/

/-- Python `s.lower()`. -/
def pyLower (s : String) : String :=
  String.mk (s.toList.map Char.toLower)

/-- Auxiliary for `pySplit`. -/
def pySplitAux (sep : Char) : List Char → List Char → List String
  | [], acc => [String.mk acc.reverse]
  | c :: cs, acc =>
    if c = sep then String.mk acc.reverse :: pySplitAux sep cs []
    else pySplitAux sep cs (c :: acc)

/-- Python `s.split(sep)` for a single-character separator: empty fields are
kept, the result is never empty. -/
def pySplit (s : String) (sep : Char) : List String :=
  pySplitAux sep s.toList []

/-- Python `sep.join(parts)`. -/
def pyJoin (sep : String) : List String → String
  | [] => ""
  | [x] => x
  | x :: xs => x ++ sep ++ pyJoin sep xs

/-- Error taxonomy: each constructor corresponds to an exception the Python
code can raise (explicitly or implicitly). -/
inductive TransError where
  /-- `TranslatorError('Input model contains a component cycle')` -/
  | cycleError
  /-- `TranslatorError` from `FailureModel._parse_parameters` (`die()`) -/
  | paramError (fm : String) (dist : String)
  /-- `ExporterError('A Group element without logic cannot have multiple children')` -/
  | logicError
  /-- `NotImplementedError('Merging Group without logic is not yet supported')` -/
  | notImplementedError
  /-- `TranslatorError` while building the failures graph (bad parent) -/
  | failureParentError
  /-- uncaught Python `ValueError` (e.g. `int()` on a non-numeric string) -/
  | valueError
  /-- uncaught Python `KeyError` (failed dict lookup) -/
  | keyError
  /-- uncaught Python `StopIteration` (`next()` on an exhausted iterator) -/
  | stopIteration
  /-- uncaught Python `AttributeError`/`TypeError` (attribute access or
  arithmetic on `None`) -/
  | attributeError
  /-- artefact of the embedding: the resolution fixed-point loop ran out of
  fuel, i.e. the Python loop spins forever and nothing is produced -/
  | nonTermination
  deriving Repr, DecidableEq

deriving instance DecidableEq for Except

/-! ## translator/entities.py -/

/-- Python `re.split(r'[(,)]', s)`, auxiliary: walk the characters, cutting at
every `(`, `,` or `)`; delimiters are dropped, empty fields are kept. -/
def splitDelimsAux : List Char → List Char → List String
  | [], acc => [String.mk acc.reverse]
  | c :: cs, acc =>
    if c = '(' ∨ c = ',' ∨ c = ')' then
      String.mk acc.reverse :: splitDelimsAux cs []
    else
      splitDelimsAux cs (c :: acc)

/-- Python `re.split(r'[(,)]', s)`. -/
def splitDelims (s : String) : List String :=
  splitDelimsAux s.toList []

/-- `ElementLogic` (translator/entities.py): a parsed logic specification.
`voting`/`total` are the optional second and third tokens of the raw string. -/
structure ElementLogic where
  name : String
  voting : Option String
  total : Option String
  deriving Repr, DecidableEq

/-- `ElementLogic.__init__`: `tokens = re.split(r'[(,)]', raw_string)`;
`name = tokens[0]`, `voting = tokens[1]` and `total = tokens[2]` when
present. -/
def mkElementLogic (raw : String) : ElementLogic :=
  let tokens := splitDelims raw
  { name := tokens.headD "", voting := tokens[1]?, total := tokens[2]? }

/-- `ElementLogic.__eq__(self, logic_str)`: case-insensitive comparison of
the logic *name* against a plain string; `voting`/`total` are not consulted. -/
def logicEq (l : ElementLogic) (s : String) : Bool :=
  pyLower l.name == pyLower s

/-- Comparison of an optional logic with a string: Python `None == s` is
`False`, otherwise `ElementLogic.__eq__` applies. -/
def optLogicEq (l : Option ElementLogic) (s : String) : Bool :=
  match l with
  | some l => logicEq l s
  | none => false

/-- rbd.py `logic_to_standby_mode(logic)`. -/
def logicToStandbyMode (l : Option ElementLogic) : Option String :=
  if optLogicEq l "active" then some "Hot"
  else if optLogicEq l "standby" then some "Cold"
  else none

/-- Failure-model parameters: one `mttf` integer for `exponential`, a list of
string triples for the weibull family (exactly as Python stores them:
`[int]` vs a list of `str.split(',')` results). -/
inductive FMParams where
  | expo (mttf : Nat)
  | triples (ts : List (List String))
  deriving Repr, DecidableEq

/-- `FailureModel` (translator/entities.py). -/
structure FailureModel where
  name : String
  distribution : String
  parameters : FMParams
  standby_state : String
  remarks : String
  deriving Repr, DecidableEq

/-- Consume `[0-9]+` (one or more digits) from the front of a character list;
`none` when the first character is not a digit.  The token class (digits) is
disjoint from the delimiters that follow it in the patterns below, so greedy
matching is exact for those regexes. -/
def chompDigits : List Char → Option (List Char)
  | c :: rest => if c.isDigit then some (rest.dropWhile Char.isDigit) else none
  | [] => none

/-- Consume one expected character from the front. -/
def chompChar (c : Char) : List Char → Option (List Char)
  | d :: rest => if d = c then some rest else none
  | [] => none

/-- Consume the pattern `[0-9]+,[0-9]+,[0-9]+` from the front. -/
def chompTriple (cs : List Char) : Option (List Char) := do
  let cs ← chompDigits cs
  let cs ← chompChar ',' cs
  let cs ← chompDigits cs
  let cs ← chompChar ',' cs
  chompDigits cs

/-- Consume `k ≥ 1` colon-separated `[0-9]+,[0-9]+,[0-9]+` triples from the
front. -/
def chompTriples : Nat → List Char → Option (List Char)
  | 0, cs => some cs
  | 1, cs => chompTriple cs
  | k + 2, cs => do
    let cs ← chompTriple cs
    let cs ← chompChar ':' cs
    chompTriples (k + 1) cs

/-- Python `re.match(pattern, s)` truthiness for the k-triple patterns of
`FailureModel._parse_parameters`.  NOTE `re.match` anchors only at the START
of the string: a match of the pattern against a *prefix* of `s` succeeds,
whatever follows it. -/
def reMatchTriples (k : Nat) (s : String) : Bool :=
  (chompTriples k s.toList).isSome

/-- Python `re.match(r'[0-9]+', s)` truthiness (prefix match again). -/
def reMatchDigits (s : String) : Bool :=
  (chompDigits s.toList).isSome

/-- Python `int(s)` as used on the exponential parameter string: succeeds
exactly on non-empty all-digit strings (sign/whitespace forms do not occur
in this data), otherwise `ValueError`. -/
def pyInt (s : String) : Except TransError Nat :=
  let cs := s.toList
  if cs ≠ [] ∧ cs.all Char.isDigit then
    .ok (cs.foldl (fun n c => 10 * n + (c.toNat - 48)) 0)
  else .error .valueError

/-- `FailureModel.__init__` together with `_parse_parameters`
(translator/entities.py): map the distribution name, then validate the
parameter specification with `re.match` (prefix anchoring!) and store the
parameter list. -/
def mkFailureModel (name distribution parameter_spec standby_state remarks :
    String) : Except TransError FailureModel := do
  let dist ←
    match pyLower distribution with
    | "exponential" => pure "Exponential"
    | "weibull" => pure "Weibull"
    | "bi-weibull" => pure "Bi-Weibull"
    | "tri-weibull" => pure "Tri-Weibull"
    | _ => throw TransError.keyError
  let params ←
    if pyLower dist = "exponential" then
      if reMatchDigits parameter_spec then
        match pyInt parameter_spec with
        | .ok n => pure (FMParams.expo n)
        | .error e => throw e
      else throw (TransError.paramError name dist)
    else if pyLower dist = "weibull" then
      if reMatchTriples 1 parameter_spec then
        pure (FMParams.triples [pySplit parameter_spec (',')])
      else throw (TransError.paramError name dist)
    else if pyLower dist = "bi-weibull" then
      if reMatchTriples 2 parameter_spec then
        pure (FMParams.triples
          ((pySplit parameter_spec (':')).map
            (fun x => pySplit x (','))))
      else throw (TransError.paramError name dist)
    else if pyLower dist = "tri-weibull" then
      if reMatchTriples 3 parameter_spec then
        pure (FMParams.triples
          ((pySplit parameter_spec (':')).map
            (fun x => pySplit x (','))))
      else throw (TransError.paramError name dist)
    else throw TransError.keyError
  pure { name, distribution := dist, parameters := params,
         standby_state, remarks }

/-- `SystemElement` (translator/entities.py): a component / group / failure
node / failure event record.  `logic` and `failure_model` start out unset and
are attached by the index builder; `description` is set only by the Isograph
exporter's name normalization. -/
structure SystemElement where
  type : String
  name : String
  parent : Option String
  code : String
  instances : Nat
  description : Option String := none
  logic : Option ElementLogic := none
  failure_model : Option FailureModel := none
  deriving Repr, DecidableEq

/-- `SystemElement.is_type(type_str)`: case-insensitive type test. -/
def SystemElement.isType (e : SystemElement) (t : String) : Bool :=
  pyLower e.type == pyLower t

/-- `SystemElement.id`: `'{}_{}'.format(type, name)`. -/
def SystemElement.eid (e : SystemElement) : String :=
  e.type ++ "_" ++ e.name

/-! ## An insertion-ordered embedding of networkx 1.x `DiGraph`

`nodes` is the node dict: key plus one attribute record per node, in
insertion order, without duplicate keys; `edges` is the edge list in
insertion order, without duplicates.  With these invariants, iteration
orders (`nodes_iter`, adjacency, `edges_iter` per node) coincide with the
Python implementation's insertion-ordered dicts. -/
structure NxGraph (V A : Type) where
  nodes : List (V × A) := []
  edges : List (V × V) := []
  deriving Repr, DecidableEq

namespace NxGraph

variable {V A : Type} [DecidableEq V]

/-- The node keys, in insertion (= iteration) order. -/
def keys (g : NxGraph V A) : List V :=
  g.nodes.map Prod.fst

/-- Attribute record of a node, if present. -/
def attr? (g : NxGraph V A) (v : V) : Option A :=
  (g.nodes.find? (fun p => decide (p.1 = v))).map Prod.snd

/-- `g.add_node(v, **attrs)`: append a fresh node, or overwrite the
attributes of an existing one (every call site sets the full record). -/
def addNode (g : NxGraph V A) (v : V) (a : A) : NxGraph V A :=
  if v ∈ g.keys then
    { g with nodes := g.nodes.map (fun p => if p.1 = v then (v, a) else p) }
  else
    { g with nodes := g.nodes ++ [(v, a)] }

/-- `g.node[v].update(...)`: modify the attribute record of an existing node
in place (absent nodes are untouched; the source never updates one). -/
def updateAttr (g : NxGraph V A) (v : V) (f : A → A) : NxGraph V A :=
  { g with nodes := g.nodes.map (fun p => if p.1 = v then (p.1, f p.2) else p) }

/-- `g.add_edge(u, v)`: missing endpoints are created with empty attribute
dicts (the `Inhabited` default); a duplicate edge is a no-op. -/
def addEdge [Inhabited A] (g : NxGraph V A) (u v : V) : NxGraph V A :=
  let g := if u ∈ g.keys then g else { g with nodes := g.nodes ++ [(u, default)] }
  let g := if v ∈ g.keys then g else { g with nodes := g.nodes ++ [(v, default)] }
  if (u, v) ∈ g.edges then g else { g with edges := g.edges ++ [(u, v)] }

/-- `g.add_edges_from(es)`. -/
def addEdgesFrom [Inhabited A] (g : NxGraph V A) (es : List (V × V)) :
    NxGraph V A :=
  es.foldl (fun g e => g.addEdge e.1 e.2) g

/-- `g.in_degree(v)`. -/
def inDegree (g : NxGraph V A) (v : V) : Nat :=
  (g.edges.filter (fun e => decide (e.2 = v))).length

/-- `g.out_degree(v)`. -/
def outDegree (g : NxGraph V A) (v : V) : Nat :=
  (g.edges.filter (fun e => decide (e.1 = v))).length

/-- `g.successors(u)` / `g.neighbors(u)`, in adjacency-insertion order. -/
def successors (g : NxGraph V A) (u : V) : List V :=
  (g.edges.filter (fun e => decide (e.1 = u))).map Prod.snd

/-- `g.predecessors(v)`, in insertion order. -/
def predecessors (g : NxGraph V A) (v : V) : List V :=
  (g.edges.filter (fun e => decide (e.2 = v))).map Prod.fst

/-- `g.remove_edges_from(es)`. -/
def removeEdgesFrom (g : NxGraph V A) (es : List (V × V)) : NxGraph V A :=
  { g with edges := g.edges.filter (fun e => decide (e ∉ es)) }

/-- `g.remove_nodes_from(vs)`: delete the nodes and all incident edges. -/
def removeNodesFrom (g : NxGraph V A) (vs : List V) : NxGraph V A :=
  { nodes := g.nodes.filter (fun p => decide (p.1 ∉ vs)),
    edges := g.edges.filter (fun e => decide (e.1 ∉ vs ∧ e.2 ∉ vs)) }

/-- `g.remove_node(v)`. -/
def removeNode (g : NxGraph V A) (v : V) : NxGraph V A :=
  g.removeNodesFrom [v]

/-- One BFS visit of successor `v` of `u` over the state
(visited, queue, tree edges): an unvisited successor is marked, enqueued
and its tree edge recorded. -/
def bfsFoldStep (u : V) (st : List V × List V × List (V × V)) (v : V) :
    List V × List V × List (V × V) :=
  if v ∈ st.1 then st
  else (st.1 ++ [v], st.2.1 ++ [v], st.2.2 ++ [(u, v)])

/-- BFS worker: dequeue a node and visit its successors in adjacency order.
Fuel only bounds the number of dequeues; since each enqueued node is freshly
visited and never re-enqueued, `nodes.length + edges.length + 1` dequeues
always drain the queue. -/
def bfsAux (g : NxGraph V A) :
    Nat → List V → List V → List (V × V) → List V × List (V × V)
  | 0, _, visited, es => (visited, es)
  | _ + 1, [], visited, es => (visited, es)
  | fuel + 1, u :: queue, visited, es =>
    let st := (g.successors u).foldl (bfsFoldStep u) (visited, queue, es)
    bfsAux g fuel st.2.1 st.1 st.2.2

/-- BFS from `source`: the visited list (in visit order) and the tree edges
of `nx.bfs_edges(g, source)` (in yield order). -/
def bfsFull (g : NxGraph V A) (source : V) : List V × List (V × V) :=
  bfsAux g (g.nodes.length + g.edges.length + 1) [source] [source] []

/-- Nodes reachable from `source`, in BFS order. -/
def bfsVisited (g : NxGraph V A) (source : V) : List V :=
  (bfsFull g source).1

/-- `nx.bfs_edges(g, source)`. -/
def bfsEdges (g : NxGraph V A) (source : V) : List (V × V) :=
  (bfsFull g source).2

/-- DFS preorder worker (explicit stack, successors pushed in adjacency
order). -/
def dfsAux (g : NxGraph V A) : Nat → List V → List V → List V
  | 0, _, visited => visited
  | _ + 1, [], visited => visited
  | fuel + 1, u :: stack, visited =>
    if u ∈ visited then dfsAux g fuel stack visited
    else dfsAux g fuel (g.successors u ++ stack) (visited ++ [u])

/-- `nx.dfs_preorder_nodes(g, source)`. -/
def dfsPreorder (g : NxGraph V A) (source : V) : List V :=
  dfsAux g (g.nodes.length + g.edges.length + 1) [source] []

/-- DFS tree-edge worker. -/
def dfsEdgesAux (g : NxGraph V A) :
    Nat → List (V × V) → List V → List (V × V) → List (V × V)
  | 0, _, _, es => es
  | _ + 1, [], _, es => es
  | fuel + 1, (p, u) :: stack, visited, es =>
    if u ∈ visited then dfsEdgesAux g fuel stack visited es
    else dfsEdgesAux g fuel ((g.successors u).map (fun w => (u, w)) ++ stack)
      (visited ++ [u]) (es ++ [(p, u)])

/-- `nx.dfs_edges(g, source)`: DFS tree edges in visit order. -/
def dfsEdges (g : NxGraph V A) (source : V) : List (V × V) :=
  dfsEdgesAux g (g.nodes.length + g.edges.length + 1)
    ((g.successors source).map (fun w => (source, w))) [source] []

/-- `nx.shortest_path_length(g, s, t)` via BFS with distances. -/
def spLenAux (g : NxGraph V A) :
    Nat → List (V × Nat) → List V → V → Option Nat
  | 0, _, _, _ => none
  | _ + 1, [], _, _ => none
  | fuel + 1, (u, d) :: queue, visited, t =>
    if u = t then some d
    else
      let st := (g.successors u).foldl
        (fun (st : List V × List (V × Nat)) w =>
          if w ∈ st.1 then st else (st.1 ++ [w], st.2 ++ [(w, d + 1)]))
        (visited, queue)
      spLenAux g fuel st.2 st.1 t

/-- `nx.shortest_path_length(g, s, t)` (`none` = no path). -/
def shortestPathLength (g : NxGraph V A) (s t : V) : Option Nat :=
  spLenAux g (g.nodes.length + g.edges.length + 1) [(s, 0)] [s] t

/-- `nx.has_path(g, s, t)`. -/
def hasPath (g : NxGraph V A) (s t : V) : Bool :=
  decide (t ∈ bfsVisited g s)

/-- Neighbors in the undirected view (for weak connectivity). -/
def undirNeighbors (g : NxGraph V A) (u : V) : List V :=
  g.successors u ++ g.predecessors u

/-- Weak-connectivity DFS worker. -/
def wccAux (g : NxGraph V A) : Nat → List V → List V → List V
  | 0, _, comp => comp
  | _ + 1, [], comp => comp
  | fuel + 1, u :: stack, comp =>
    if u ∈ comp then wccAux g fuel stack comp
    else wccAux g fuel (undirNeighbors g u ++ stack) (comp ++ [u])

/-- Weakly-connected component containing `v` (node list). -/
def wccOf (g : NxGraph V A) (v : V) : List V :=
  wccAux g (g.nodes.length + 2 * g.edges.length + 1) [v] []

/-- `nx.weakly_connected_component_subgraphs(g)` as node lists, one per
component, discovered in node order. -/
def wccs (g : NxGraph V A) : List (List V) :=
  g.keys.foldl
    (fun (acc : List (List V)) v =>
      if acc.any (fun c => decide (v ∈ c)) then acc else acc ++ [wccOf g v]) []

/-- `nx.number_weakly_connected_components(g)`. -/
def numWccs (g : NxGraph V A) : Nat :=
  (wccs g).length

/-- rbd.py `disconnected(graph)`. -/
def disconnectedG (g : NxGraph V A) : Bool :=
  decide (numWccs g > 1)

/-- `g.subgraph(nbunch)`: induced subgraph; nodes keep `nbunch` order (first
occurrence, restricted to `g`), edges are listed node-major in adjacency
order, attributes are carried over. -/
def subgraphOf (g : NxGraph V A) (nbunch : List V) : NxGraph V A :=
  let ns := nbunch.foldl
    (fun (acc : List V) v =>
      if decide (v ∈ acc) ∨ decide (v ∉ g.keys) then acc else acc ++ [v]) []
  { nodes := ns.filterMap (fun v => (g.attr? v).map (fun a => (v, a))),
    edges := ns.flatMap (fun u =>
      ((g.successors u).filter (fun w => decide (w ∈ ns))).map (fun w => (u, w))) }

/-- Deterministic topological sort (Kahn: repeatedly take the first remaining
node, in node order, with no incoming remaining edge).  The source relies
only on the first element being the unique root and on sources preceding
targets, which this order shares with networkx's DFS-based
`topological_sort`.  Nodes on a cycle are dropped (networkx raises; the
source only sorts DAGs). -/
def topoAux : Nat → List V → List (V × V) → List V → List V
  | 0, _, _, acc => acc
  | fuel + 1, rem, es, acc =>
    match rem.find? (fun v => es.all (fun e => decide (e.2 ≠ v))) with
    | none => acc
    | some v =>
      topoAux fuel (rem.erase v) (es.filter (fun e => decide (e.1 ≠ v)))
        (acc ++ [v])

/-- `nx.topological_sort(g)`. -/
def topologicalSort (g : NxGraph V A) : List V :=
  topoAux (g.nodes.length + 1) g.keys g.edges []

/-- One Kahn peeling round: delete every in-degree-0 node together with its
outgoing edges. -/
def kahnStep : List V × List (V × V) → List V × List (V × V)
  | (ns, es) =>
    let zeros := ns.filter (fun v => es.all (fun e => decide (e.2 ≠ v)))
    (ns.filter (fun v => decide (v ∉ zeros)),
     es.filter (fun e => decide (e.1 ∉ zeros)))

/-- Iterated Kahn peeling. -/
def kahnIter : Nat → List V × List (V × V) → List V × List (V × V)
  | 0, st => st
  | fuel + 1, st => kahnIter fuel (kahnStep st)

/-- `nx.is_directed_acyclic_graph(g)`: after `|nodes| + 1` peeling rounds a
DAG (whose edge endpoints are all nodes, as holds for every graph the source
builds) has no edges left, while the edges of any cycle survive every round. -/
def isDag (g : NxGraph V A) : Bool :=
  ((kahnIter (g.nodes.length + 1) (g.keys, g.edges)).2).isEmpty

end NxGraph

/-! ## Input rows (loader/rows.py value containers) -/

/-- A `components` sheet row. -/
structure ComponentRow where
  type : String
  name : String
  parent : String
  code : String
  instances : Nat
  deriving Repr, DecidableEq

/-- A `logic` sheet row. -/
structure LogicRow where
  type : String
  component : String
  logic : String
  deriving Repr, DecidableEq

/-- A `failure_models` sheet row. -/
structure FailureModelRow where
  name : String
  distribution : String
  parameters : String
  standbystate : String
  remarks : String
  deriving Repr, DecidableEq

/-- A `component_failures` sheet row. -/
structure ComponentFailureRow where
  component : String
  failuremodel : String
  deriving Repr, DecidableEq

/-- `RowsContainer` (the slices consumed by `IRContainer.load_from_rows`;
manpower/spares feed only the excluded emitters). -/
structure RowsContainer where
  component_list : List ComponentRow := []
  logic_list : List LogicRow := []
  failure_models_list : List FailureModelRow := []
  component_failures_list : List ComponentFailureRow := []
  deriving Repr, DecidableEq

/-! ## translator/ir.py -/

/-- ir.py `is_template_def(row)`: the parent is the `*` wildcard. -/
def isTemplateDef (row : ComponentRow) : Bool :=
  row.parent == "*"

/-- ir.py `is_component(row)`. -/
def isComponentRow (row : ComponentRow) : Bool :=
  ["basic", "compound", "group"].contains (pyLower row.type)

/-- ir.py `is_failure(row)`. -/
def isFailureRow (row : ComponentRow) : Bool :=
  ["failurenode", "failureevent"].contains (pyLower row.type)

/-- Component-graph node labels: the dot-token list of the Python string
label (see the representation notes at the top of the file). -/
abbrev Label := List String

/-- ir.py `component_basename(node)`: `node.split('.')[-1]`. -/
def componentBasename (node : Label) : String :=
  node.getLastD ""

/-- `OrderedDict` assignment `d[k] = a`: update in place, or append. -/
def odSet {κ α : Type} [DecidableEq κ] (d : List (κ × α)) (k : κ) (a : α) :
    List (κ × α) :=
  if k ∈ d.map Prod.fst then d.map (fun p => if p.1 = k then (k, a) else p)
  else d ++ [(k, a)]

/-- `OrderedDict` lookup. -/
def odGet? {κ α : Type} [DecidableEq κ] (d : List (κ × α)) (k : κ) : Option α :=
  (d.find? (fun p => decide (p.1 = k))).map Prod.snd

/-- The three indexes built by `IRContainer._build_indexes`. -/
structure IRIndexes where
  components_index : List ((String × String) × SystemElement) := []
  failures_index : List (String × SystemElement) := []
  failure_models_index : List (String × FailureModel) := []
  deriving Repr, DecidableEq

/-- `IRContainer._build_indexes`: create one `SystemElement` per component
row (structural rows keyed by `(name, parent)`, failure rows keyed by name;
template definitions excluded); attach logic (`inherited` rows to every
component entry of that name, others to the named failures entry — a missing
entry is an uncaught `KeyError`); build the failure-model index (parameter
validation can fail); process model-to-component assignments (unresolved
names are warnings only). -/
def buildIndexes (rc : RowsContainer) : Except TransError IRIndexes := do
  let idx1 := rc.component_list.foldl
    (fun (ix : IRIndexes) row =>
      let element : SystemElement :=
        { type := row.type, name := row.name, parent := some row.parent,
          code := row.code, instances := row.instances }
      if isComponentRow row && !isTemplateDef row then
        { ix with components_index :=
            (odSet ix.components_index (row.name, row.parent) element) }
      else if isFailureRow row then
        { ix with failures_index := odSet ix.failures_index row.name element }
      else ix)
    {}
  let idx2 ← rc.logic_list.foldlM
    (fun (ix : IRIndexes) row => do
      let logic := mkElementLogic row.logic
      if pyLower row.type == "inherited" then
        pure { ix with components_index :=
          (ix.components_index.map (fun p =>
            if p.1.1 = row.component then (p.1, { p.2 with logic := some logic })
            else p)) }
      else
        match odGet? ix.failures_index row.component with
        | some e => pure { ix with failures_index :=
            (odSet ix.failures_index row.component { e with logic := some logic }) }
        | none => throw TransError.keyError)
    idx1
  let idx3 ← rc.failure_models_list.foldlM
    (fun (ix : IRIndexes) row => do
      let fm ← mkFailureModel row.name row.distribution row.parameters
        row.standbystate row.remarks
      pure { ix with failure_models_index :=
        (odSet ix.failure_models_index fm.name fm) })
    idx2
  let idx4 := rc.component_failures_list.foldl
    (fun (ix : IRIndexes) row =>
      match odGet? ix.failure_models_index row.failuremodel with
      | none => ix
      | some fm =>
        { ix with components_index :=
          (ix.components_index.map (fun p =>
            if p.1.1 = row.component then
              (p.1, { p.2 with failure_model := some fm })
            else p)) })
    idx3
  pure idx4

/-- Component-graph node attribute: the optional `'obj'` `SystemElement`. -/
abbrev CAttr := Option SystemElement

/-- The components / raw-input graph. -/
abbrev CompGraph := NxGraph Label CAttr

/-- The label of the synthetic root. -/
def rootLabel : Label := ["ROOT"]

/-- `IRContainer._build_raw_input_component_graph`: one `parent → name` edge
per structural (non-template) component row; fail with `TranslatorError`
(`CycleError` of the taxonomy) when the resulting graph is not acyclic. -/
def rawComponentGraph (rc : RowsContainer) : CompGraph :=
  (rc.component_list.filter
      (fun row => isComponentRow row && !isTemplateDef row)).foldl
    (fun g row => g.addEdge (pySplit row.parent '.') (pySplit row.name '.'))
    {}

/-- The acyclicity gate of `_build_raw_input_component_graph`. -/
def buildRawInputComponentGraph (rc : RowsContainer) :
    Except TransError CompGraph :=
  if (rawComponentGraph rc).isDag then .ok (rawComponentGraph rc)
  else .error .cycleError

/-- `relabel(old_label, node)` from `_build_components_graph`, token-list
view: `tokens.insert(-1, node_tokens[-1])` — insert the base name (last
token) of `node` immediately before the last token of `old_label`. -/
def relabelL (oldLabel node : Label) : Label :=
  match oldLabel with
  | [] => [node.getLastD ""]
  | _ => oldLabel.dropLast ++ [node.getLastD "", oldLabel.getLastD ""]

/-- `relabel` on the string view: split at dots, insert, join with dots. -/
def relabel (oldLabel node : String) : String :=
  pyJoin "." (relabelL (pySplit oldLabel '.') (pySplit node '.'))

/-- The `for u, v in nx.bfs_edges(g, 'ROOT')` scan of
`_build_components_graph`: the first BFS-edge target with in-degree > 1. -/
def findShared (g : CompGraph) : Option Label :=
  ((NxGraph.bfsEdges g rootLabel).map Prod.snd).find?
    (fun v => decide (NxGraph.inDegree g v > 1))

/-- One body iteration of the fixed-point loop of `_build_components_graph`:
pick the first shared node `v`, detach the edges from its predecessors,
take the subgraph rooted at `v` (`[v] + dfs_preorder_nodes`), remove it, and
per predecessor `p` reattach a relabelled copy (`add_edge(p, relabel(v, p))`
followed by the relabelled subgraph edges).  `none` when no shared node
remains and the loop exits. -/
def resolveStep (g : CompGraph) : Option CompGraph :=
  match findShared g with
  | none => none
  | some v =>
    let preds := NxGraph.predecessors g v
    let g1 := NxGraph.removeEdgesFrom g (preds.map (fun p => (p, v)))
    let subG := NxGraph.subgraphOf g1 ([v] ++ NxGraph.dfsPreorder g1 v)
    let g2 := NxGraph.removeNodesFrom g1 subG.keys
    let g3 := preds.foldl
      (fun (acc : CompGraph) p =>
        let acc := NxGraph.addEdge acc p (relabelL v p)
        NxGraph.addEdgesFrom acc
          (subG.edges.map (fun e => (relabelL e.1 p, relabelL e.2 p))))
      g2
    some g3

/-- The fixed-point loop of `_build_components_graph`, with explicit fuel for
its (not formally guaranteed) termination; `none` models the loop spinning
forever, in which case the translator produces nothing at all. -/
def resolveFix : Nat → CompGraph → Option CompGraph
  | 0, _ => none
  | fuel + 1, g =>
    match resolveStep g with
    | none => some g
    | some g1 => resolveFix fuel g1

/-- The failures graph (string labels `{type}_{name}`). -/
abbrev FailGraph := NxGraph String CAttr

/-- `IRContainer._build_failures_graph`: one `{parenttype}_{parent} →
{type}_{name}` edge per failures-index entry.  A `FailureNode` parent must
resolve in the components index (first entry of that name), a `FailureEvent`
parent in the failures index; otherwise `TranslatorError`. -/
def buildFailuresGraph (ix : IRIndexes) : Except TransError FailGraph := do
  ix.failures_index.foldlM
    (fun (f : FailGraph) entry => do
      let element := entry.2
      let parentId := element.parent.getD ""
      let parentType ←
        if pyLower element.type == "failurenode" then
          match ix.components_index.find? (fun p => decide (p.1.1 = parentId)) with
          | some p => pure p.2.type
          | none => throw TransError.failureParentError
        else if pyLower element.type == "failureevent" then
          match odGet? ix.failures_index parentId with
          | some e => pure e.type
          | none => throw TransError.failureParentError
        else
          -- `parent_type` would be unbound in Python (`NameError`);
          -- unreachable, since the failures index only holds failure rows
          throw TransError.attributeError
      pure (f.addEdge (parentType ++ "_" ++ parentId) element.eid))
    {}

/-- `IRContainer._assign_objects`: give the root its synthetic Compound
element; give every BFS-reachable components-graph node a copy of the index
entry keyed by its own and its parent's base names, with the fully-qualified
(joined) name substituted; give every non-root failures-graph node its
failures-index entry (key = text after the `_`). -/
def assignObjects (ix : IRIndexes) (g : CompGraph) (f : FailGraph) :
    Except TransError (CompGraph × FailGraph) := do
  if rootLabel ∉ g.keys then throw TransError.keyError
  let ro : SystemElement :=
    { type := "Compound", name := "ROOT", parent := none, code := "ROOT",
      instances := 1, logic := some (mkElementLogic "ROOT") }
  let g := NxGraph.updateAttr g rootLabel (fun _ => some ro)
  let g ← (NxGraph.bfsEdges g rootLabel).foldlM
    (fun (g : CompGraph) e => do
      let ub := componentBasename e.1
      let vb := componentBasename e.2
      match ix.components_index.find? (fun p => decide (p.1 = (vb, ub))) with
      | none => throw TransError.keyError
      | some p =>
        pure (NxGraph.updateAttr g e.2
          (fun _ => some { p.2 with name := pyJoin "." e.2 })))
    g
  let f ← (f.keys.filter (fun n => decide (NxGraph.inDegree f n = 0))).foldlM
    (fun (f : FailGraph) r =>
      (NxGraph.bfsEdges f r).foldlM
        (fun (f : FailGraph) e => do
          match pySplit e.2 '_' with
          | [_, idxKey] =>
            match odGet? ix.failures_index idxKey with
            | some el => pure (NxGraph.updateAttr f e.2 (fun _ => some el))
            | none => throw TransError.keyError
          | _ => throw TransError.valueError)
        f)
    f
  pure (g, f)

/-- The loaded IR container (the fields the exporter consumes). -/
structure IRContainer where
  indexes : IRIndexes
  raw_input_graph : CompGraph
  components_graph : CompGraph
  failures_graph : FailGraph
  deriving Repr, DecidableEq

/-- `IRContainer.load_from_rows` = `_build_indexes` followed by
`_build_graphs` (raw input graph → components graph → failures graph →
object assignment), with explicit fuel for the resolution fixed point. -/
def loadFromRows (fuel : Nat) (rc : RowsContainer) :
    Except TransError IRContainer := do
  let ix ← buildIndexes rc
  let rig ← buildRawInputComponentGraph rc
  let cg ←
    match resolveFix fuel rig with
    | some cg => pure cg
    | none => throw TransError.nonTermination
  let fg ← buildFailuresGraph ix
  let (cg, fg) ← assignObjects ix cg fg
  pure { indexes := ix, raw_input_graph := rig, components_graph := cg,
         failures_graph := fg }

/-! ## exporter/isograph/rbd.py -/

/-- Decimal rendering of a `Nat` (Python `str(i)`), with structural fuel. -/
def natStrAux : Nat → Nat → List Char
  | 0, _ => []
  | _ + 1, 0 => []
  | fuel + 1, n => natStrAux fuel (n / 10) ++ [Char.ofNat (48 + n % 10)]

/-- Python `str(i)` for a non-negative integer. -/
def natStr (n : Nat) : String :=
  if n = 0 then "0" else String.mk (natStrAux (n + 1) n)

/-- A character of the `[a-zA-Z0-9\-_]` class of `parse_code`. -/
def isCodeChar (c : Char) : Bool :=
  c.isAlpha || c.isDigit || c = '-' || c = '_'

/-- The `\x7binstance\x7d` format hole emitted by `parse_code`. -/
def holeMarker : List Char :=
  "\x7binstance\x7d".toList

/-- rbd.py `parse_code(c)`: when `c` fully matches
`^[a-zA-Z0-9\-_]*\[[Xx]\][a-zA-Z0-9\-_]*$` (the bracket group occurs exactly
once, as brackets are excluded from the character class), replace it with
the `instance` format hole; otherwise return `c` unchanged. -/
def parseCode (c : String) : String :=
  let cs := c.toList
  let front := cs.takeWhile isCodeChar
  match cs.drop front.length with
  | '[' :: x :: ']' :: tail =>
    if (x = 'X' ∨ x = 'x') ∧ tail.all isCodeChar then
      String.mk front ++ String.mk holeMarker ++ String.mk tail
    else c
  | _ => c

/-- Replace every occurrence of the format hole by `repl` (fuel-bounded walk
over the characters). -/
def replaceHoleAux (repl : List Char) : Nat → List Char → List Char
  | 0, cs => cs
  | fuel + 1, cs =>
    match cs with
    | [] => []
    | c :: rest =>
      if holeMarker.isPrefixOf cs then
        repl ++ replaceHoleAux repl fuel (cs.drop holeMarker.length)
      else c :: replaceHoleAux repl fuel rest

/-- Python `code.format(instance=i)` for codes produced by `parse_code`
(those contain no other braces, so formatting only fills the hole). -/
def pyFormatInstance (code : String) (inst : Nat) : String :=
  String.mk (replaceHoleAux (natStr inst).toList (code.length + 1) code.toList)

/-- `_RbdBlock` (rbd.py): a leaf block instance; `code` is stored through
`parse_code`.  The field `inst` is the source's `instance` attribute
(`instance` is a Lean keyword). -/
structure RbdBlock where
  name : String
  code : String
  type : String
  description : Option String := none
  inst : Option Nat := none
  standby_mode : Option String := none
  failure_model : Option FailureModel := none
  deriving Repr, DecidableEq

/-- `_RbdBlock.__str__` / `.id`: `{name}.{instance}` when an instance is
set, else the name. -/
def RbdBlock.bid (b : RbdBlock) : String :=
  match b.inst with
  | some i => b.name ++ "." ++ natStr i
  | none => b.name

/-- `_RbdNode` (rbd.py): a junction with an optional vote value.  `inst`
models the *dynamically added* `instance` attribute: absent at construction
(`none`, as `getattr(..., 'instance', None)` reads it), writable by
`get_diagram_instance`; it never affects the id. -/
structure RbdNode where
  name : String
  vote_value : Option Nat := none
  inst : Option Nat := none
  deriving Repr, DecidableEq

/-- A diagram element: an `_RbdBlock` or an `_RbdNode`. -/
inductive RbdElem where
  | block (b : RbdBlock)
  | node (n : RbdNode)
  deriving Repr, DecidableEq

/-- `.name` of either element. -/
def RbdElem.ename : RbdElem → String
  | .block b => b.name
  | .node n => n.name

/-- `.id` of either element (`__str__`). -/
def RbdElem.rid : RbdElem → String
  | .block b => b.bid
  | .node n => n.name

/-- `.type` of either element (`'Rbd node'` for junctions). -/
def RbdElem.rtype : RbdElem → String
  | .block b => b.type
  | .node _ => "Rbd node"

/-- `.code` of either element (`None` → `""` for junctions). -/
def RbdElem.rcode : RbdElem → String
  | .block b => b.code
  | .node _ => ""

/-- `getattr(e, 'instance', None)`. -/
def RbdElem.instOf : RbdElem → Option Nat
  | .block b => b.inst
  | .node n => n.inst

/-- `e.instance = i` (plain attribute assignment; works on both classes). -/
def RbdElem.setInst : RbdElem → Nat → RbdElem
  | .block b, i => .block { b with inst := some i }
  | .node n, i => .node { n with inst := some i }

/-- `e.standby_mode = m` (junctions have no such attribute in the source,
but the assignment would create one; it is never read back on junctions). -/
def RbdElem.setStandby : RbdElem → Option String → RbdElem
  | .block b, m => .block { b with standby_mode := m }
  | .node n, _ => .node n

/-- Internal-diagram node keys.  Normally the element's id string; the other
constructors model Python objects used directly as dict keys:
`finalize_graph` adds the exit `_RbdNode` OBJECT as a key (while its edges
target the id STRING), and the group-merge loop can pass `None` where
`find_edges` returned `(None, None)`. -/
inductive DKey where
  | str (s : String)
  | objNode (name : String) (vote : Option Nat)
  | pynone
  deriving Repr, DecidableEq

/-- Internal-diagram node attributes: the optional `'obj'` element. -/
structure IAttr where
  obj : Option RbdElem := none
  deriving Repr, DecidableEq

instance : Inhabited IAttr := ⟨{}⟩

/-- An internal block diagram. -/
abbrev IDiagram := NxGraph DKey IAttr

/-- Layout hints (rbd.py `Layout`). -/
inductive Layout where
  | series
  | parallel
  deriving Repr, DecidableEq

/-- Spec-graph node attributes inside `generate_internal_graph`: the
associated element plus the `diagram` / `hint` annotations. -/
structure SAttr where
  obj : Option SystemElement := none
  diagram : Option IDiagram := none
  hint : Option Layout := none
  deriving Repr, DecidableEq

instance : Inhabited SAttr := ⟨{}⟩

/-- The per-compound structural subgraph handed to
`generate_internal_graph`. -/
abbrev SpecGraph := NxGraph Label SAttr

/-- `get_node_object(g, n)` on the spec graph (`None` when missing). -/
def sObj (g : SpecGraph) (n : Label) : Option SystemElement :=
  (NxGraph.attr? g n).bind (fun a => a.obj)

/-- An object access that Python would crash on when the object is `None`. -/
def sObjE (g : SpecGraph) (n : Label) : Except TransError SystemElement :=
  match sObj g n with
  | some o => .ok o
  | none => .error .attributeError

/-- `get_node_object(f, n)` on the failures graph. -/
def fObj (f : FailGraph) (n : String) : Option SystemElement :=
  (NxGraph.attr? f n).bind (fun a => a)

/-- Failure-graph object access that crashes on `None`. -/
def fObjE (f : FailGraph) (n : String) : Except TransError SystemElement :=
  match fObj f n with
  | some o => .ok o
  | none => .error .attributeError

/-- `sliding_window.window(seq, 2)`: consecutive pairs; a single-element
sequence yields one `(x, None)` pair (the `b2 is None` checks in the source
rely on this); the empty sequence yields nothing (unreachable there). -/
def windowPairs {α : Type} : List α → List (α × Option α)
  | [] => []
  | [a] => [(a, none)]
  | a :: b :: rest => (a, some b) :: windowPairs (b :: rest)

/-- `enumerate_blocks(root)` (closure in `generate_internal_graph`): the
`nx.bfs_edges` scan breaks at the first edge whose source is not `root`, so
it enumerates exactly the direct successors of `root`, in adjacency order;
a successor with `instances > 1` yields one `_RbdBlock` per instance number
1..n, otherwise a single instance-less block.  `code` passes through
`parse_code` in `_RbdBlock.__init__`. -/
def enumerateBlocks (g : SpecGraph) (root : Label) :
    Except TransError (List RbdBlock) :=
  (NxGraph.successors g root).foldlM
    (fun (acc : List RbdBlock) v => do
      let vo ← sObjE g v
      let base : RbdBlock :=
        { name := vo.name, code := parseCode vo.code, type := "Rbd block",
          description := vo.description, failure_model := vo.failure_model }
      if vo.instances > 1 then
        pure (acc ++ (List.range vo.instances).map
          (fun i => { base with inst := some (i + 1) }))
      else pure (acc ++ [base]))
    []

/-- `get_node_object(d, k)` on an internal diagram (`d.node[k]['obj']`);
reading it for a missing node or attribute is a Python crash. -/
def iObjE (d : IDiagram) (k : DKey) : Except TransError RbdElem :=
  match (NxGraph.attr? d k).bind (fun a => a.obj) with
  | some o => .ok o
  | none => .error .attributeError

/-- `nx.relabel_nodes(d, \x7bold: new\x7d, copy=False)` (networkx 1.x
`_relabel_inplace`, singleton mapping): a no-op when the labels coincide
(the overlapping-label path drops the self-loop pair and skips
`new == old`); otherwise `add_node(new, attr_dict=d.node[old])` — appended
as a fresh dict entry when `new` is not a key yet, updated in place
otherwise — then the old in- and out-edges are collected redirected to
`new`,
`remove_node(old)` drops the node with its edges, and `add_edges_from`
appends the redirected edges.  Besides the graph it reports the freshly
appended dict keys (what a live dict iterator has still to visit). -/
def relabelInPlace (d : IDiagram) (old new : DKey) : IDiagram × List DKey :=
  if new = old then (d, [])
  else
    let fresh : Bool := decide (new ∉ NxGraph.keys d)
    let a := (NxGraph.attr? d old).getD {}
    let outs := (NxGraph.successors d old).map
      (fun t => (new, if t = old then new else t))
    let ins := (NxGraph.predecessors d old).map
      (fun s => ((if s = old then new else s), new))
    let d1 := NxGraph.addNode d new a
    let d2 := NxGraph.removeNode d1 old
    let d3 := NxGraph.addEdgesFrom d2 (outs ++ ins)
    (d3, if fresh then [new] else [])

/-- One `groupby` group formation in `get_diagram_instance`: starting from
a pulled key with name `nm`, keep pulling queue keys while their object's
name equals `nm` (each pull evaluates the key function, i.e. reads the
object).  Stops at the first mismatch, which stays at the front of the
remaining queue, exactly like `groupby`'s lookahead element; an empty
remainder is the iterator's `StopIteration`. -/
def gdiSpan (d : IDiagram) (nm : String) :
    List DKey → Except TransError (List DKey × List DKey)
  | [] => pure ([], [])
  | k :: ks => do
      let o ← iObjE d k
      if o.ename = nm then do
        let (g, r) ← gdiSpan d nm ks
        pure (k :: g, r)
      else pure ([], k :: ks)

/-- Process one `groupby` group of `get_diagram_instance` against the live
graph: a length-1 group gets instance `instance + 1`; in a longer group
each member gets `instance * length + current` (a `None` current is the
Python `instance * length + None` `TypeError`, embedded as the same crash
constructor).  Each member's object is mutated (`o.instance = ...` writes
through the shared attribute dict) and its node relabelled `o.id`-before →
`o.id`-after in place; the freshly appended dict keys are collected in
order. -/
def gdiGroup (inst : Nat) (d : IDiagram) (grp : List DKey) :
    Except TransError (IDiagram × List DKey) :=
  match grp with
  | [k] => do
      let o ← iObjE d k
      let old := DKey.str o.rid
      let o2 := RbdElem.setInst o (inst + 1)
      let d1 := NxGraph.updateAttr d k (fun a => { a with obj := some o2 })
      pure (relabelInPlace d1 old (DKey.str o2.rid))
  | ks => ks.foldlM (fun (st : IDiagram × List DKey) k => do
      let o ← iObjE st.1 k
      let cur ← match o.instOf with
        | some c => pure c
        | none => throw TransError.attributeError
      let old := DKey.str o.rid
      let o2 := RbdElem.setInst o (inst * ks.length + cur)
      let d1 := NxGraph.updateAttr st.1 k (fun a => { a with obj := some o2 })
      let (d2, app) := relabelInPlace d1 old (DKey.str o2.rid)
      pure (d2, st.2 ++ app)) (d, [])

/-- The loop of `get_diagram_instance`: `itertools.groupby` pulls lazily
from `d.nodes_iter()` — an iterator over the LIVE node dict — while the
loop body relabels nodes in place.  Under the CPython 3.6 compact
insertion-ordered dict this project targets, `add_node` of a fresh key
appends an entry the iterator will still reach and `remove_node` leaves a
hole it skips, so the not-yet-visited part of the dict acts as a queue:
each group takes its members from the front and the group's relabels
append the fresh keys at the back — relabelled runs get pulled and
renumbered AGAIN.  When the underlying iterator is exhausted mid-group
(`StopIteration`), it stays exhausted: keys appended by that last group
are never revisited.  (On Python 3.8+ the first pull after a relabel
raises `RuntimeError: dictionary keys changed during iteration` instead.)
Alternating name runs make the loop run forever; exhausted fuel is
reported as `nonTermination`. -/
def gdiLoop (inst : Nat) : Nat → IDiagram → List DKey →
    Except TransError IDiagram
  | 0, _, _ => throw TransError.nonTermination
  | _ + 1, d, [] => pure d
  | fuel + 1, d, k0 :: ks => do
      let o0 ← iObjE d k0
      let (tl, rest) ← gdiSpan d o0.ename ks
      let (d2, app) ← gdiGroup inst d (k0 :: tl)
      match rest with
      | [] => pure d2
      | _ => gdiLoop inst fuel d2 (rest ++ app)

/-- `get_diagram_instance(diagram, instance)` (rbd.py): work on a copy of
the diagram, then re-number every node grouped by element name with
`itertools.groupby` — over the live, mutating node dict (see `gdiLoop`).
Only when every name forms one adjacent run that the relabels cannot feed
back into the iterator (e.g. a single-name diagram, where the iterator is
exhausted before the first relabel) does this coincide with a snapshot
pass. -/
def getDiagramInstance (d : IDiagram) (inst : Nat) :
    Except TransError IDiagram :=
  gdiLoop inst (2 * d.nodes.length + 2) d (NxGraph.keys d)

/-- `find_edges(graph)`: `(None, None)` when disconnected, otherwise the
first in-degree-0 and the first out-degree-0 node in node order (`next` on
an exhausted filter is a Python crash). -/
def findEdgesD (d : IDiagram) : Except TransError (Option DKey × Option DKey) :=
  if NxGraph.disconnectedG d then .ok (none, none)
  else do
    let s ← match d.keys.find? (fun x => decide (NxGraph.inDegree d x = 0)) with
      | some s => pure s
      | none => throw TransError.stopIteration
    let e ← match d.keys.find? (fun x => decide (NxGraph.outDegree d x = 0)) with
      | some e => pure e
      | none => throw TransError.stopIteration
    pure (some s, some e)

/-- A Python value used as a dict key where it may be `None`. -/
def optKey : Option DKey → DKey
  | some k => k
  | none => DKey.pynone

/-- `merge_group_diagrams(group_node)` (rbd.py).  In order: fatal
`ExporterError` for a logic-less group with more than one child; mark the
group's object `Processed`; a single-child group absorbs the child's diagram
and hint and deletes the child; otherwise hinted children move to the end of
the merge list (each one's hint is copied onto the group, the last wins),
and the children's diagrams are merged per the group's logic — `and`
bridges consecutive children per group instance (each weak component of a
disconnected right-hand diagram is bridged separately), `or/active/standby`
is an unimplemented TODO that leaves the merged diagram EMPTY — and the
merged children are removed from the spec graph. -/
def mergeGroupDiagrams (g : SpecGraph) (groupNode : Label) :
    Except TransError SpecGraph := do
  let o ← sObjE g groupNode
  if o.logic = none ∧ NxGraph.outDegree g groupNode > 1 then
    throw TransError.logicError
  let o := { o with type := "Processed" }
  let g := NxGraph.updateAttr g groupNode (fun a => { a with obj := some o })
  if NxGraph.outDegree g groupNode = 1 then
    match NxGraph.successors g groupNode with
    | t :: _ =>
      let g := NxGraph.updateAttr g groupNode (fun a =>
        { a with diagram := (NxGraph.attr? g t).bind (fun b => b.diagram),
                 hint := (NxGraph.attr? g t).bind (fun b => b.hint) })
      pure (NxGraph.removeNode g t)
    | [] => throw TransError.stopIteration
  else
    let childs := NxGraph.successors g groupNode
    let withHint := childs.filter (fun x =>
      decide (((NxGraph.attr? g x).bind (fun a => a.hint)) ≠ none))
    let nodesToMerge := childs.filter (fun x => decide (x ∉ withHint)) ++ withHint
    let g := withHint.foldl
      (fun (g : SpecGraph) x => NxGraph.updateAttr g groupNode (fun a =>
        { a with hint := (NxGraph.attr? g x).bind (fun b => b.hint) }))
      g
    let diagram : IDiagram ←
      if o.logic = none then throw TransError.notImplementedError
      else if optLogicEq o.logic "and" then
        (windowPairs nodesToMerge).foldlM
          (fun (diagram : IDiagram) wp =>
            match wp with
            | (_, none) => pure diagram
            | (n1, some n2) =>
              (List.range o.instances).foldlM
                (fun (diagram : IDiagram) i => do
                  let n1d ← match (NxGraph.attr? g n1).bind (fun a => a.diagram) with
                    | some d => pure d
                    | none => throw TransError.attributeError
                  let n2d ← match (NxGraph.attr? g n2).bind (fun a => a.diagram) with
                    | some d => pure d
                    | none => throw TransError.attributeError
                  let d1 ← getDiagramInstance n1d i
                  let d2 ← getDiagramInstance n2d i
                  let diagram := d1.nodes.foldl
                    (fun (dg : IDiagram) p => NxGraph.addNode dg p.1 p.2) diagram
                  let diagram := d2.nodes.foldl
                    (fun (dg : IDiagram) p => NxGraph.addNode dg p.1 p.2) diagram
                  let diagram := NxGraph.addEdgesFrom diagram d1.edges
                  let diagram := NxGraph.addEdgesFrom diagram d2.edges
                  let se1 ← findEdgesD d1
                  if NxGraph.disconnectedG d2 = false then do
                    let se2 ← findEdgesD d2
                    pure (NxGraph.addEdge diagram (optKey se1.2) (optKey se2.1))
                  else
                    (NxGraph.wccs d2).foldlM
                      (fun (diagram : IDiagram) comp => do
                        let wkc := NxGraph.subgraphOf d2 comp
                        let se2 ← findEdgesD wkc
                        pure (NxGraph.addEdge diagram (optKey se1.2) (optKey se2.1)))
                      diagram)
                diagram)
          ({} : IDiagram)
      else pure ({} : IDiagram)
    let g := NxGraph.updateAttr g groupNode (fun a =>
      { a with diagram := some diagram })
    pure (NxGraph.removeNodesFrom g nodesToMerge)

/-- `look_for_hint(n)` (closure in `generate_internal_graph`): find the
failures-subgraph root (first in-degree-0 node, `next` crashes when there is
none), then DFS its edges; whenever the leaf's description (or, when falsy,
its name) equals the target object's name, stamp the leaf's layout hint from
the source object's logic (parallel for `or/active/standby`, series for
`and`).  Every match re-stamps, the last wins. -/
def lookForHint (g : SpecGraph) (f : FailGraph) (n : Label) :
    Except TransError SpecGraph := do
  let r ← match f.keys.find? (fun x => decide (NxGraph.inDegree f x = 0)) with
    | some r => pure r
    | none => throw TransError.stopIteration
  (NxGraph.dfsEdges f r).foldlM
    (fun (g : SpecGraph) e => do
      let no ← sObjE g n
      let toCompare := match no.description with
        | some d => if d ≠ "" then d else no.name
        | none => no.name
      let vo ← fObjE f e.2
      if toCompare = vo.name then do
        let uo ← fObjE f e.1
        if optLogicEq uo.logic "or" || optLogicEq uo.logic "active" ||
            optLogicEq uo.logic "standby" then
          pure (NxGraph.updateAttr g n (fun a => { a with hint := some Layout.parallel }))
        else if optLogicEq uo.logic "and" then
          pure (NxGraph.updateAttr g n (fun a => { a with hint := some Layout.series }))
        else pure g
      else pure g)
    g

/-- `create_basic_diagram(leaf)` (closure in `generate_internal_graph`):
build the leaf's temporary diagram from its instance count and the logic of
its parent (`next(nx.all_neighbors(g, leaf))` — the first predecessor, since
a leaf has no successors): no logic ⇒ isolated per-instance blocks; `and` ⇒
per-instance blocks chained pairwise; `or/active/standby` ⇒ EMPTY diagram
(handled later); other logic ⇒ empty diagram with an error logged.  One
instance ⇒ a single instance-less block. -/
def createBasicDiagram (g : SpecGraph) (leaf : Label) :
    Except TransError SpecGraph := do
  let o ← sObjE g leaf
  let par ← match NxGraph.predecessors g leaf ++ NxGraph.successors g leaf with
    | p :: _ => pure p
    | [] => throw TransError.stopIteration
  let po ← sObjE g par
  let logic := po.logic
  let base : RbdBlock :=
    { name := o.name, code := parseCode o.code, type := "Rbd block",
      description := o.description, failure_model := o.failure_model }
  let diagram : IDiagram :=
    if o.instances > 1 then
      if logic = none then
        (List.range o.instances).foldl
          (fun (d : IDiagram) i =>
            let b := { base with inst := some (i + 1) }
            NxGraph.addNode d (DKey.str b.bid) { obj := some (RbdElem.block b) })
          {}
      else if optLogicEq logic "and" then
        (windowPairs ((List.range o.instances).map (fun i => i + 1))).foldl
          (fun (d : IDiagram) p =>
            let b1 := { base with inst := some p.1 }
            let b2 := { base with inst := p.2 }
            let d := NxGraph.addNode d (DKey.str b1.bid) { obj := some (RbdElem.block b1) }
            let d := NxGraph.addNode d (DKey.str b2.bid) { obj := some (RbdElem.block b2) }
            NxGraph.addEdge d (DKey.str b1.bid) (DKey.str b2.bid))
          {}
      else ({} : IDiagram)
    else
      NxGraph.addNode {} (DKey.str base.bid) { obj := some (RbdElem.block base) }
  pure (NxGraph.updateAttr g leaf (fun a => { a with diagram := some diagram }))

/-- `find_deepest_group(root)`: DFS the spec graph; among edge targets whose
object's type is `group`, keep the one with the greatest
`shortest_path_length` from the root seen so far (strictly greater, so the
first deepest wins); result is the group and its DFS parent. -/
def findDeepestGroup (g : SpecGraph) (root : Label) :
    Except TransError (Option (Label × Label)) := do
  let r ← (NxGraph.dfsEdges g root).foldlM
    (fun (acc : Option (Label × Nat × Label)) e => do
      let vo ← sObjE g e.2
      if pyLower vo.type == "group" then
        let d := (NxGraph.shortestPathLength g root e.2).getD 0
        match acc with
        | some (_, depth, _) =>
          if d > depth then pure (some (e.2, d, e.1)) else pure acc
        | none =>
          if d > 0 then pure (some (e.2, d, e.1)) else pure acc
      else pure acc)
    none
  pure (r.map (fun t => (t.1, t.2.2)))

/-- `has_nodes(name_id)` (closure in `apply_failure_logic`): scan the
diagram's nodes lazily; `True` at the first object whose name matches
(`None.name` on an earlier object-less node is a crash). -/
def hasNodesAux (target : String) : List (DKey × IAttr) → Except TransError Bool
  | [] => .ok false
  | p :: rest =>
    match p.2.obj with
    | none => .error .attributeError
    | some ob =>
      if RbdElem.ename ob = target then .ok true else hasNodesAux target rest

/-- `apply_failure_logic(group)` (closure in `generate_internal_graph`):
walk the failures subgraph from its root; for every `FailureEvent` target
whose name matches nodes of the merged diagram, under `or/active/standby`
parent logic create one `{self.name}.Out` junction (vote = `None` for `or`,
else `int(parent.logic.voting)`), connect every matching node to it and
stamp each matching node's standby mode FROM THE ENCLOSING ROOT LOGIC (the
closure variable `logic`, not the failure parent's — per the source);
under `and` the source filters raw node keys by `x.name` and crashes with
`AttributeError` as soon as the diagram is non-empty. -/
def applyFailureLogic (selfName : String) (rootLogic : Option ElementLogic)
    (g : SpecGraph) (f : FailGraph) (group : Label) :
    Except TransError SpecGraph := do
  let d0 := (NxGraph.attr? g group).bind (fun a => a.diagram)
  let r ← match f.keys.find? (fun x => decide (NxGraph.inDegree f x = 0)) with
    | some r => pure r
    | none => throw TransError.stopIteration
  let d ← (NxGraph.dfsEdges f r).foldlM
    (fun (d : Option IDiagram) e => do
      let vo ← fObjE f e.2
      if vo.isType "FailureEvent" then do
        let uoOpt := fObj f e.1
        let dd ← match d with
          | some dd => pure dd
          | none => throw TransError.attributeError
        let hn ← hasNodesAux vo.name dd.nodes
        if hn then do
          let uo ← match uoOpt with
            | some x => pure x
            | none => throw TransError.attributeError
          if optLogicEq uo.logic "or" || optLogicEq uo.logic "active" ||
              optLogicEq uo.logic "standby" then do
            let voteVal ←
              if optLogicEq uo.logic "or" then pure (none : Option Nat)
              else match uo.logic with
                | some l =>
                  match l.voting with
                  | some vs => (pyInt vs).map some
                  | none => throw TransError.attributeError
                | none => throw TransError.attributeError
            let nodeOut : RbdNode := { name := selfName ++ ".Out", vote_value := voteVal }
            let dd := NxGraph.addNode dd (DKey.str nodeOut.name)
              { obj := some (RbdElem.node nodeOut) }
            -- matching nodes get the standby stamp and an edge to the out
            -- node (object-less nodes would crash the Python filter; such
            -- nodes do not occur in merged leaf diagrams)
            let dd := dd.nodes.foldl
              (fun (acc : IDiagram) p =>
                match p.2.obj with
                | some ob =>
                  if RbdElem.ename ob = vo.name then
                    let ob := RbdElem.setStandby ob (logicToStandbyMode rootLogic)
                    let acc := NxGraph.updateAttr acc p.1
                      (fun a => { a with obj := some ob })
                    NxGraph.addEdge acc p.1 (DKey.str nodeOut.name)
                  else acc
                | none => acc)
              dd
            pure (some dd)
          else if optLogicEq uo.logic "and" then
            if dd.nodes.isEmpty then pure (some dd)
            else throw TransError.attributeError
          else pure (some dd)
        else pure (some dd)
      else pure d)
    d0
  match d with
  | some dd => pure (NxGraph.updateAttr g group (fun a => { a with diagram := some dd }))
  | none => pure g

/-- `finalize_graph(graph)` (closure in `generate_internal_graph`): compute
entry points (in-degree 0) and exit points (out-degree 0) UP FRONT; with
more than one entry point add a synthetic `{name}.__ENTRY_POINT` node under
its id STRING as the key, with an edge to every entry point; with more than
one exit point add a synthetic `{name}.__EXIT_POINT` node — but under the
`_RbdNode` OBJECT as the dict key (`graph.add_node(exit_node, ...)`), while
the edges target the id STRING (`graph.add_edge(point, exit_node.id)`),
which therefore comes into existence as a second, attribute-less node. -/
def finalizeGraph (selfName : String) (graph : IDiagram) : IDiagram :=
  let entryPoints := graph.keys.filter (fun x => decide (NxGraph.inDegree graph x = 0))
  let exitPoints := graph.keys.filter (fun x => decide (NxGraph.outDegree graph x = 0))
  let graph :=
    if entryPoints.length > 1 then
      let eid := selfName ++ ".__ENTRY_POINT"
      let en : RbdNode := { name := eid }
      let graph := NxGraph.addNode graph (DKey.str eid)
        { obj := some (RbdElem.node en) }
      entryPoints.foldl (fun (g : IDiagram) p => NxGraph.addEdge g (DKey.str eid) p) graph
    else graph
  if exitPoints.length > 1 then
    let xid := selfName ++ ".__EXIT_POINT"
    let xn : RbdNode := { name := xid }
    let graph := NxGraph.addNode graph (DKey.objNode xid none)
      { obj := some (RbdElem.node xn) }
    exitPoints.foldl (fun (g : IDiagram) p => NxGraph.addEdge g p (DKey.str xid)) graph
  else graph

/-- The `for _ in filter(lambda n: get_node_object(g, n).is_type('group'), g)`
scan with its immediate `break`: `true` iff some node's object has type
`group`; objects are forced in node order up to the first group, so a
missing object before the first group is a crash. -/
def findGroupFlag : List (Label × SAttr) → Except TransError Bool
  | [] => .ok false
  | p :: rest =>
    match p.2.obj with
    | none => .error .attributeError
    | some o => if o.isType "group" then .ok true else findGroupFlag rest

/-- The `while True` merge loop of `generate_internal_graph`: stop when two
nodes remain (the root and its only child); otherwise merge the deepest
group (when no group is left, `merge_group_diagrams(None)` is a `KeyError`).
The fuel bounds the iterations; a merge that removes no node (an empty
`and`-group) loops forever in Python. -/
def mergeLoop (root : Label) : Nat → SpecGraph → Except TransError SpecGraph
  | 0, _ => throw TransError.nonTermination
  | fuel + 1, g =>
    if g.nodes.length = 2 then pure g
    else do
      match ← findDeepestGroup g root with
      | some (dg, _) => do
        let g ← mergeGroupDiagrams g dg
        mergeLoop root fuel g
      | none => throw TransError.keyError

/-- `_CompoundBlock.generate_internal_graph(spec_graph, failures_graph)`
(rbd.py): find the root (no in-degree-0 node ⇒ an empty diagram is stored
and finalization is skipped); when the spec graph contains a Group element
take the grouped path (per-leaf hints + basic diagrams, merge loop, failure
logic overlay on the root's only child); otherwise expand the root logic
directly (`and`/`root`: pairwise chain of the enumerated blocks;
`or/active/standby`: `In`/`Out` junctions — the vote value, `None` for
`or`, else `int(logic.voting)`, goes to the OUT node only — with
`In → block → Out` wiring and the standby mode stamped from the root
logic); finally `finalize_graph`. -/
def generateInternalGraph (selfName : String) (g : SpecGraph)
    (f : Option FailGraph) : Except TransError IDiagram := do
  match g.keys.find? (fun x => decide (NxGraph.inDegree g x = 0)) with
  | none => pure {}
  | some root => do
    let ro ← sObjE g root
    let logic := ro.logic
    let hasGroup ← findGroupFlag g.nodes
    let ig ←
      if hasGroup then do
        let fg ← match f with
          | some fg => pure fg
          | none => throw TransError.attributeError
        let leaves := g.keys.filter (fun x => decide (NxGraph.outDegree g x = 0))
        let g ← leaves.foldlM
          (fun (g : SpecGraph) leaf => do
            let g ← lookForHint g fg leaf
            createBasicDiagram g leaf)
          g
        let g ← mergeLoop root (g.nodes.length + 1) g
        let dg ← match NxGraph.successors g root with
          | t :: _ => pure t
          | [] => throw TransError.stopIteration
        let g ← applyFailureLogic selfName logic g fg dg
        match (NxGraph.attr? g dg).bind (fun a => a.diagram) with
        | some ig => pure ig
        | none => throw TransError.attributeError
      else
        if optLogicEq logic "and" || optLogicEq logic "root" then do
          let blocks ← enumerateBlocks g root
          pure ((windowPairs blocks).foldl
            (fun (ig : IDiagram) wp =>
              match wp with
              | (b1, none) =>
                NxGraph.addNode ig (DKey.str b1.bid) { obj := some (RbdElem.block b1) }
              | (b1, some b2) =>
                let ig := NxGraph.addNode ig (DKey.str b1.bid)
                  { obj := some (RbdElem.block b1) }
                let ig := NxGraph.addNode ig (DKey.str b2.bid)
                  { obj := some (RbdElem.block b2) }
                NxGraph.addEdge ig (DKey.str b1.bid) (DKey.str b2.bid))
            {})
        else if optLogicEq logic "or" || optLogicEq logic "active" ||
            optLogicEq logic "standby" then do
          let voteVal ←
            if optLogicEq logic "or" then pure (none : Option Nat)
            else match logic with
              | some l =>
                match l.voting with
                | some vs => (pyInt vs).map some
                | none => throw TransError.attributeError
              | none => throw TransError.attributeError
          let nodeIn : RbdNode := { name := selfName ++ ".In" }
          let nodeOut : RbdNode := { name := selfName ++ ".Out", vote_value := voteVal }
          let ig : IDiagram := NxGraph.addNode {} (DKey.str nodeIn.name)
            { obj := some (RbdElem.node nodeIn) }
          let ig := NxGraph.addNode ig (DKey.str nodeOut.name)
            { obj := some (RbdElem.node nodeOut) }
          let blocks ← enumerateBlocks g root
          pure (blocks.foldl
            (fun (ig : IDiagram) b =>
              let b := { b with standby_mode := logicToStandbyMode logic }
              let ig := NxGraph.addNode ig (DKey.str b.bid)
                { obj := some (RbdElem.block b) }
              let ig := NxGraph.addEdge ig (DKey.str nodeIn.name) (DKey.str b.bid)
              NxGraph.addEdge ig (DKey.str b.bid) (DKey.str nodeOut.name))
            ig)
        else pure ({} : IDiagram)
    pure (finalizeGraph selfName ig)

/-- `_CompoundBlock` as stored in `Rbd._compound_block_index` (the dot graph
is the external layout collaborator's concern). -/
structure CompoundBlock where
  name : String
  code : String
  block_graph : IDiagram
  deriving Repr, DecidableEq

/-- `extract_subgraph(node)` (rbd.py `_construct_compound_blocks`): BFS the
components graph from the compound node; keep an edge unless some nested
compound seen so far reaches its target in the FULL graph (`nx.has_path`);
record nested compounds in the fringe; finally attach the component objects
(possibly `None`) to the subgraph nodes. -/
def extractSubgraph (g : CompGraph) (node : Label) :
    Except TransError SpecGraph := do
  let st ← (NxGraph.bfsEdges g node).foldlM
    (fun (st : NxGraph Label (Option Unit) × List Label) e => do
      let (sub, fringe) := st
      let sub := if fringe.any (fun n => NxGraph.hasPath g n e.2) then sub
                 else NxGraph.addEdge sub e.1 e.2
      let dstO ← match (NxGraph.attr? g e.2).bind (fun a => a) with
        | some o => pure o
        | none => throw TransError.attributeError
      let fringe := if dstO.isType "compound" then fringe ++ [e.2] else fringe
      pure (sub, fringe))
    (({} : NxGraph Label (Option Unit)), ([] : List Label))
  pure { nodes := st.1.nodes.map (fun p =>
           (p.1, ({ obj := (NxGraph.attr? g p.1).bind (fun a => a) } : SAttr))),
         edges := st.1.edges }

/-- `extract_failures_subgraph(node)`: the first weakly-connected component
of the failures graph whose topologically-first node's name part (after the
`_`) equals `node`; `none` when there is no match. -/
def extractFailuresSubgraph (f : FailGraph) (node : String) :
    Except TransError (Option FailGraph) :=
  (NxGraph.wccs f).foldlM
    (fun (acc : Option FailGraph) comp => do
      match acc with
      | some _ => pure acc
      | none =>
        let sub := NxGraph.subgraphOf f comp
        let root := (NxGraph.topologicalSort sub).headD ""
        match pySplit root '_' with
        | [_, rkey] => if rkey = node then pure (some sub) else pure none
        | _ => throw TransError.valueError)
    none

/-- `Rbd.from_ir_container` / `_construct_compound_blocks`: walk the
components graph in BFS order from its topological root; for every compound
node generate the internal diagram and index the `_CompoundBlock` by name
(the failures subgraph is selected by the node's description when set, else
by its joined label). -/
def constructCompoundBlocks (ir : IRContainer) :
    Except TransError (List (String × CompoundBlock)) := do
  let g := ir.components_graph
  let f := ir.failures_graph
  let root ← match NxGraph.topologicalSort g with
    | r :: _ => pure r
    | [] => throw TransError.keyError
  ([root] ++ (NxGraph.bfsEdges g root).map Prod.snd).foldlM
    (fun (acc : List (String × CompoundBlock)) n => do
      let ndo ← match (NxGraph.attr? g n).bind (fun a => a) with
        | some o => pure o
        | none => throw TransError.attributeError
      if ndo.isType "compound" then do
        let sub ← extractSubgraph g n
        let fsubKey := match ndo.description with
          | some d => if d ≠ "" then d else pyJoin "." n
          | none => pyJoin "." n
        let fsub ← extractFailuresSubgraph f fsubKey
        let ig ← generateInternalGraph ndo.name sub fsub
        pure (odSet acc ndo.name
          { name := ndo.name, code := parseCode ndo.code, block_graph := ig })
      else pure acc)
    []

/-- One token of an Isograph id: string or integer (the source builds mixed
lists and drops falsy entries — empty strings, `0`, `None` — before
joining). -/
inductive Tok where
  | s (v : String)
  | n (v : Nat)
  deriving Repr, DecidableEq

/-- Python truthiness of a token. -/
def Tok.isTruthy : Tok → Bool
  | .s v => v ≠ ""
  | .n v => v ≠ 0

/-- `str(token)`. -/
def Tok.toStr : Tok → String
  | .s v => v
  | .n v => natStr v

/-- `'.'.join(str(x) for x in tokens)`. -/
def joinToks (ts : List Tok) : String :=
  pyJoin "." (ts.map Tok.toStr)

/-- `element_tokens()` (shared by `_serialize_element` and
`_serialize_connection`): prefix = parent path plus the parent instance when
truthy; then the element name — replaced by `code.format(instance=…)` when a
code is set, suppressing the instance token when the code absorbed it — and
the instance; falsy tokens are dropped. -/
def elementTokens (ppath : List Nat) (pinstance : Option Nat) (ename : String)
    (ecode : String) (einst : Option Nat) : List Tok :=
  let pref : List Tok := ppath.map Tok.n ++
    (match pinstance with
     | some i => if i ≠ 0 then [Tok.n i] else []
     | none => [])
  let instv : Nat := (einst.getD 0)
  let nameInst : String × Option Nat :=
    if ecode ≠ "" then
      let formatted := pyFormatInstance ecode instv
      if formatted ≠ ecode then (formatted, none) else (ecode, some instv)
    else (ename, some instv)
  (pref ++ [Tok.s nameInst.1] ++
    (match nameInst.2 with | some i => [Tok.n i] | none => [])).filter Tok.isTruthy

/-- `parent_tokens()` (shared by `_serialize_element` and
`_serialize_connection`): the parent path, the parent block's name (its
code, instance-formatted, when set) and its instance, falsy tokens
dropped. -/
def parentTokens (ppath : List Nat) (pinstance : Option Nat) (pname : String)
    (pcode : String) : List Tok :=
  let instv : Nat := (pinstance.getD 0)
  let nameInst : String × Option Nat :=
    if pcode ≠ "" then
      let formatted := pyFormatInstance pcode instv
      if formatted ≠ pcode then (formatted, none) else (pcode, some instv)
    else (pname, some instv)
  (ppath.map Tok.n ++ [Tok.s nameInst.1] ++
    (match nameInst.2 with | some i => [Tok.n i] | none => [])).filter Tok.isTruthy

/-- One record handed to the emitter (`add_block` / `add_node` /
`add_connection`).  Coordinates are the integers obtained from the external
layout collaborator (the fixed 1.75 display scaling the source applies is a
float rendering concern and stays outside the embedding). -/
inductive EmitRecord where
  | blockRec (id page : String) (x y : Int) (description standby_mode : Option String)
      (failure_model : Option FailureModel)
  | nodeRec (id page : String) (vote : Option Nat) (x y : Int)
  | connRec (id page : String) (src_id src_type dst_id dst_type : String)
  deriving Repr, DecidableEq

/-- `Rbd._serialize_element`: build Id and Page from the token lists and emit
a Block or Node record.  `layoutFn` is the external layout collaborator
(dot): it maps (compound name, element id) to coordinates. -/
def serializeElement (layoutFn : String → String → Int × Int) (elem : RbdElem)
    (parent : CompoundBlock) (ppath : List Nat) (pinstance : Option Nat) :
    EmitRecord :=
  let pos := layoutFn parent.name (RbdElem.rid elem)
  let idStr := joinToks (elementTokens ppath pinstance (RbdElem.ename elem)
    (RbdElem.rcode elem) (RbdElem.instOf elem))
  let pageStr := joinToks (parentTokens ppath pinstance parent.name parent.code)
  match elem with
  | .block b => .blockRec idStr pageStr pos.1 pos.2 b.description b.standby_mode
      b.failure_model
  | .node n => .nodeRec idStr pageStr n.vote_value pos.1 pos.2

/-- `Rbd._serialize_connection`: the connection id is
`{path-and-instance prefix}{src id}-{dst id}` (note the `is not None` checks
here, unlike the truthiness filters of the token builders). -/
def serializeConnection (parent : CompoundBlock) (ppath : List Nat)
    (pinstance : Option Nat) (src dst : RbdElem) : EmitRecord :=
  let parentId := joinToks (parentTokens ppath pinstance parent.name parent.code)
  let srcId := joinToks (elementTokens ppath pinstance (RbdElem.ename src)
    (RbdElem.rcode src) (RbdElem.instOf src))
  let dstId := joinToks (elementTokens ppath pinstance (RbdElem.ename dst)
    (RbdElem.rcode dst) (RbdElem.instOf dst))
  let mk : String :=
    if ppath.length > 1 then pyJoin "." (ppath.map natStr) ++ "."
    else if ppath.length = 1 then natStr (ppath.headD 0) ++ "."
    else ""
  let pref : String :=
    match pinstance with
    | some i => if mk ≠ "" then mk ++ natStr i ++ "." else natStr i ++ "."
    | none => mk
  .connRec (pref ++ RbdElem.rid src ++ "-" ++ RbdElem.rid dst) parentId
    srcId (RbdElem.rtype src) dstId (RbdElem.rtype dst)

/-- `Rbd.serialize` worker: pop `(block, path, instance)` from the stack
(LIFO, `deque.pop`); emit every node of the block's internal diagram in
topological order, pushing nested compound blocks (path extended by the
current instance when set); then emit every internal edge as a connection.
The fuel bounds the stack pops. -/
def serializeLoop (layoutFn : String → String → Int × Int)
    (index : List (String × CompoundBlock)) :
    Nat → List (CompoundBlock × List Nat × Option Nat) → List EmitRecord →
    Except TransError (List EmitRecord)
  | 0, _, _ => throw TransError.nonTermination
  | _ + 1, [], acc => pure acc
  | fuel + 1, (cblock, cpath, cinstance) :: stack, acc => do
    let order := NxGraph.topologicalSort cblock.block_graph
    let st ← order.foldlM
      (fun (st : List (CompoundBlock × List Nat × Option Nat) × List EmitRecord) u => do
        let (stack, acc) := st
        let uo ← match (NxGraph.attr? cblock.block_graph u).bind (fun a => a.obj) with
          | some o => pure o
          | none => throw TransError.attributeError
        let npath := match cinstance with
          | some i => cpath ++ [i]
          | none => cpath
        let stack := match odGet? index (RbdElem.ename uo) with
          | some nblock => (nblock, npath, RbdElem.instOf uo) :: stack
          | none => stack
        pure (stack, acc ++ [serializeElement layoutFn uo cblock cpath cinstance]))
      (stack, acc)
    let (stack, acc) := st
    let acc ← cblock.block_graph.edges.foldlM
      (fun (acc : List EmitRecord) e => do
        let uo ← match (NxGraph.attr? cblock.block_graph e.1).bind (fun a => a.obj) with
          | some o => pure o
          | none => throw TransError.attributeError
        let vo ← match (NxGraph.attr? cblock.block_graph e.2).bind (fun a => a.obj) with
          | some o => pure o
          | none => throw TransError.attributeError
        pure (acc ++ [serializeConnection cblock cpath cinstance uo vo]))
      acc
    serializeLoop layoutFn index fuel stack acc

/-- `Rbd.serialize(emitter)`: start from the first indexed compound block
(`next(iter(...))`, the BFS-first = root block) and run the stack walk; the
result is the ordered record list handed to the emitter. -/
def rbdSerialize (layoutFn : String → String → Int × Int) (serFuel : Nat)
    (index : List (String × CompoundBlock)) :
    Except TransError (List EmitRecord) :=
  match index with
  | [] => throw TransError.stopIteration
  | first :: _ => serializeLoop layoutFn index serFuel [(first.2, [], none)] []

/-- The full core pipeline: rows → IR (`load_from_rows`) → RBD
(`Rbd.from_ir_container`) → flattened records (`Rbd.serialize`),
parameterized by the external layout collaborator and the two loop fuels.
(The Isograph exporter's optional template-name normalization between IR
and RBD is an additional deterministic pure relabeling outside this
embedding.) -/
def fullPipeline (resFuel serFuel : Nat)
    (layoutFn : String → String → Int × Int) (rc : RowsContainer) :
    Except TransError (List EmitRecord) := do
  let ir ← loadFromRows resFuel rc
  let index ← constructCompoundBlocks ir
  rbdSerialize layoutFn serFuel index

/-! ## Concrete scenario inputs used by the claim theorems -/

/-- Spec §8 Scenario 1 rows: `ROOT → A` (logic And) with Basic children
`B`, `C` (one instance each). -/
def seriesScenarioRows : RowsContainer :=
  { component_list :=
      [ ⟨"Compound", "A", "ROOT", "A", 1⟩,
        ⟨"Basic", "B", "A", "B", 1⟩,
        ⟨"Basic", "C", "A", "C", 1⟩ ],
    logic_list := [ ⟨"inherited", "A", "AND"⟩, ⟨"inherited", "ROOT", "AND"⟩ ] }

/-- A trivial stand-in for the external layout collaborator. -/
def layoutZero : String → String → Int × Int := fun _ _ => (0, 0)

/-- An attribute record holding a plain block (helper for diagram
literals). -/
def blockAttr (nm : String) : IAttr :=
  { obj := some (RbdElem.block { name := nm, code := nm, type := "Rbd block" }) }

/-- A pre-finalization diagram with two sources and two sinks: two isolated
blocks, exactly what `create_basic_diagram` yields for a logic-less leaf
with two instances. -/
def twoBlockDiagram : IDiagram :=
  { nodes := [(.str "B1", blockAttr "B1"), (.str "B2", blockAttr "B2")],
    edges := [] }

/-- The in-degree-0 nodes of a diagram (its sources). -/
def sourcesOf (d : IDiagram) : List DKey :=
  d.keys.filter (fun v => decide (NxGraph.inDegree d v = 0))

/-- The out-degree-0 nodes of a diagram (its sinks). -/
def sinksOf (d : IDiagram) : List DKey :=
  d.keys.filter (fun v => decide (NxGraph.outDegree d v = 0))

/-- C4 scenario: the compound `A` with logic `Active(2,3)`. -/
def activeElemA : SystemElement :=
  { type := "Compound", name := "A", parent := some "ROOT", code := "A",
    instances := 1, logic := some (mkElementLogic "ACTIVE(2,3)") }

/-- C4 scenario: the Basic child `D` with 3 instances and no logic. -/
def activeElemD : SystemElement :=
  { type := "Basic", name := "D", parent := some "A", code := "D",
    instances := 3 }

/-- C4 scenario: the structural subgraph handed to
`generate_internal_graph` for `A` (spec §8 Scenario 2). -/
def activeSpecGraph : SpecGraph :=
  { nodes := [(["A"], { obj := some activeElemA }),
              (["D"], { obj := some activeElemD })],
    edges := [(["A"], ["D"])] }

/-- The diagram `generate_internal_graph` synthesizes for the C4 scenario. -/
def activeDiagram : IDiagram :=
  (generateInternalGraph "A" activeSpecGraph none).toOption.getD {}

/-- The vote value of a junction node with the given id: `none` = no such
junction, `some v` = its vote value. -/
def voteOf (d : IDiagram) (nm : String) : Option (Option Nat) :=
  match (NxGraph.attr? d (.str nm)).bind (fun a => a.obj) with
  | some (RbdElem.node n) => some n.vote_value
  | _ => none

/-- The standby mode of the block with the given id. -/
def standbyOf (d : IDiagram) (nm : String) : Option (Option String) :=
  match (NxGraph.attr? d (.str nm)).bind (fun a => a.obj) with
  | some (RbdElem.block b) => some b.standby_mode
  | _ => none

/-- The ids of all block (non-junction) elements of a diagram, in node
order. -/
def blockIds (d : IDiagram) : List String :=
  d.nodes.filterMap (fun p =>
    match p.2.obj with
    | some (RbdElem.block b) => some b.bid
    | _ => none)

/-! ## Claim theorems -/

/-- C1 (code bug in `finalize_graph`): finalizing a diagram with two sources
and two sinks does NOT leave exactly one in-degree-0 and one out-degree-0
node.  The entry side correctly adds one synthetic junction under its id
string; but the exit side adds the junction under the `_RbdNode` OBJECT as
the graph key (`graph.add_node(exit_node, ...)`) while the inserted edges
target the id STRING (`graph.add_edge(point, exit_node.id)`), so a stray
isolated node remains: the finalized diagram has exactly two sources and two
sinks, contradicting the claim and the function's own docstring. -/
theorem finalize_graph_exit_bug :
    sourcesOf (finalizeGraph "A" twoBlockDiagram) =
      [DKey.str "A.__ENTRY_POINT", DKey.objNode "A.__EXIT_POINT" none]
    ∧ sinksOf (finalizeGraph "A" twoBlockDiagram) =
      [DKey.objNode "A.__EXIT_POINT" none, DKey.str "A.__EXIT_POINT"]
    ∧ (sourcesOf (finalizeGraph "A" twoBlockDiagram)).length ≠ 1
    ∧ (sinksOf (finalizeGraph "A" twoBlockDiagram)).length ≠ 1 := by decide

/-- C4 counterexample: in the Active(2,3) scenario the `A.In` junction
carries vote `None` — not 2 as the claim states for BOTH junctions; only
`A.Out` receives the vote value. -/
theorem active_vote_in_counterexample :
    voteOf activeDiagram "A.In" = some none
    ∧ voteOf activeDiagram "A.In" ≠ some (some 2)
    ∧ voteOf activeDiagram "A.Out" = some (some 2) := by decide

/-- C4 amended: for `A` = Active(2,3) with Basic child `D` (3 instances),
the synthesized internal diagram consists of exactly the three blocks
`D.1`, `D.2`, `D.3` — each stamped standby mode `Hot`, derived from the
parent logic kind Active — and the two junctions `A.In` (vote `None`) and
`A.Out` (vote 2), with exactly the six connections `In → D.i` and
`D.i → Out`. -/
theorem active_scenario_amended :
    (generateInternalGraph "A" activeSpecGraph none).toOption.isSome = true
    ∧ blockIds activeDiagram = ["D.1", "D.2", "D.3"]
    ∧ standbyOf activeDiagram "D.1" = some (some "Hot")
    ∧ standbyOf activeDiagram "D.2" = some (some "Hot")
    ∧ standbyOf activeDiagram "D.3" = some (some "Hot")
    ∧ voteOf activeDiagram "A.In" = some none
    ∧ voteOf activeDiagram "A.Out" = some (some 2)
    ∧ activeDiagram.nodes.length = 5
    ∧ activeDiagram.edges =
        [(.str "A.In", .str "D.1"), (.str "D.1", .str "A.Out"),
         (.str "A.In", .str "D.2"), (.str "D.2", .str "A.Out"),
         (.str "A.In", .str "D.3"), (.str "D.3", .str "A.Out")] := by decide

/-- C5 (code bug in `FailureModel._parse_parameters`): a `weibull` model
whose parameter string holds TWO eta/beta/gamma triples is accepted, because
`re.match` anchors only at the start and the one-triple pattern matches the
string's prefix; construction returns a model with the mangled 5-entry
parameter list `"1,1,1:2,2,2".split(',')` instead of raising the claimed
fatal TranslatorError. -/
theorem weibull_two_triples_accepted :
    mkFailureModel "fm" "weibull" "1,1,1:2,2,2" "st" "rm" =
      Except.ok ⟨"fm", "Weibull",
        FMParams.triples [["1", "1", "1:2", "2", "2"]], "st", "rm"⟩ := by decide

/-- C9: the whole pipeline — rows to the flattened record sequence handed to
the emitter — is a pure function of the input row lists (all iteration
orders in the embedding are the source's insertion-ordered dict orders, and
the group-merge hinted-children tie-break is the fixed filter order): two
runs on identical inputs yield the identical record sequence, Ids, Pages
and ordering included. -/
theorem pipeline_deterministic (rc1 rc2 : RowsContainer)
    (layoutFn : String → String → Int × Int) (resFuel serFuel : Nat)
    (h : rc1 = rc2) :
    fullPipeline resFuel serFuel layoutFn rc1 =
      fullPipeline resFuel serFuel layoutFn rc2 := by
  rw [h]

/-- C9 witness: the determinism theorem applied to the concrete Scenario-1
input. -/
theorem pipeline_deterministic_witness :
    seriesScenarioRows = seriesScenarioRows
    ∧ fullPipeline 8 50 layoutZero seriesScenarioRows =
        fullPipeline 8 50 layoutZero seriesScenarioRows :=
  ⟨rfl, pipeline_deterministic seriesScenarioRows seriesScenarioRows
    layoutZero 8 50 rfl⟩

/-- C10: `ElementLogic.__eq__` compares only the logic NAME with the string,
ignoring case; the voting and total fields never influence the result; in
particular the logic parsed from `"ACTIVE(2,3)"` (voting "2", total "3")
compares equal to the plain string `"active"`. -/
theorem elementLogic_eq_ignores_voting :
    (∀ l : ElementLogic, ∀ s : String,
      logicEq l s = true ↔ pyLower l.name = pyLower s)
    ∧ (∀ n : String, ∀ v1 t1 v2 t2 : Option String, ∀ s : String,
        logicEq ⟨n, v1, t1⟩ s = logicEq ⟨n, v2, t2⟩ s)
    ∧ (mkElementLogic "ACTIVE(2,3)").voting = some "2"
    ∧ (mkElementLogic "ACTIVE(2,3)").total = some "3"
    ∧ logicEq (mkElementLogic "ACTIVE(2,3)") "active" = true := by
  refine ⟨?_, ?_, by decide, by decide, by decide⟩
  · intro l s
    simp [logicEq]
  · intro n v1 t1 v2 t2 s
    rfl

/-- `pySplitAux` never returns the empty list. -/
theorem pySplitAux_ne_nil (sep : Char) (cs : List Char) :
    ∀ acc, pySplitAux sep cs acc ≠ [] := by
  induction cs with
  | nil => intro acc; simp [pySplitAux]
  | cons c cs ih =>
    intro acc
    by_cases h : c = sep
    · simp [pySplitAux, h]
    · simpa [pySplitAux, h] using ih (c :: acc)

/-- Python `s.split(sep)` never returns the empty list. -/
theorem pySplit_ne_nil (s : String) (sep : Char) : pySplit s sep ≠ [] :=
  pySplitAux_ne_nil sep s.toList []

/-- Appending an element just before the last one is `insertIdx` at
position n-1. -/
theorem dropLast_append_pair_eq_insertIdx {α : Type} (x d : α) :
    ∀ a : List α, a ≠ [] →
      a.dropLast ++ [x, a.getLastD d] = a.insertIdx (a.length - 1) x
  | [], h => absurd rfl h
  | [_], _ => rfl
  | y :: z :: zs, _ => by
    have ih := dropLast_append_pair_eq_insertIdx x d (z :: zs)
      (List.cons_ne_nil z zs)
    have hd : (y :: z :: zs).getLastD d = (z :: zs).getLastD d := by
      simp [List.getLastD_eq_getLast?]
    calc (y :: z :: zs).dropLast ++ [x, (y :: z :: zs).getLastD d]
        = y :: ((z :: zs).dropLast ++ [x, (z :: zs).getLastD d]) := by
          simp [hd]
      _ = y :: (z :: zs).insertIdx ((z :: zs).length - 1) x := by rw [ih]
      _ = (y :: z :: zs).insertIdx ((y :: z :: zs).length - 1) x := by
          simp

/-- C7: when `resolveStep` clones the subtree of a shared node once per
former predecessor `p`, every cloned node `o` is relabelled to
`relabel(o, p)`, and `relabel` inserts `p`'s base name (its last
dot-segment) immediately before the last segment of `o`'s old label: the
new token list is the old one with the base inserted at position n-1
(equivalently `dropLast ++ [base p, last o]`), so a node labelled with n
segments is relabelled with n+1 segments. -/
theorem relabel_inserts_base_before_last (oldLabel node : String) :
    relabel oldLabel node =
      pyJoin "." ((pySplit oldLabel '.').dropLast ++
        [(pySplit node '.').getLastD "", (pySplit oldLabel '.').getLastD ""])
    ∧ relabelL (pySplit oldLabel '.') (pySplit node '.') =
        (pySplit oldLabel '.').insertIdx ((pySplit oldLabel '.').length - 1)
          ((pySplit node '.').getLastD "")
    ∧ (relabelL (pySplit oldLabel '.') (pySplit node '.')).length =
        (pySplit oldLabel '.').length + 1 := by
  have hne := pySplit_ne_nil oldLabel '.'
  have hrel : relabelL (pySplit oldLabel '.') (pySplit node '.') =
      (pySplit oldLabel '.').dropLast ++
        [(pySplit node '.').getLastD "", (pySplit oldLabel '.').getLastD ""] := by
    cases h : pySplit oldLabel '.' with
    | nil => exact absurd h hne
    | cons y ys => simp [relabelL]
  have hlen : 0 < (pySplit oldLabel '.').length := List.length_pos.mpr hne
  refine ⟨?_, ?_, ?_⟩
  · unfold relabel
    rw [hrel]
  · rw [hrel, dropLast_append_pair_eq_insertIdx _ _ _ hne]
  · rw [hrel]
    simp only [List.length_append, List.length_dropLast, List.length_cons,
      List.length_nil]
    omega

/-! Lemmas about the graph operations (used by the C2/C8 proofs). -/

namespace NxGraph

variable {V A : Type} [DecidableEq V]

theorem find?_update_list (l : List (V × A)) (v : V) (f : A → A) (w : V) :
    ((l.map (fun p => if p.1 = v then (p.1, f p.2) else p)).find?
        (fun p => decide (p.1 = w))).map Prod.snd =
      if w = v then (((l.find? (fun p => decide (p.1 = w))).map Prod.snd).map f)
      else (l.find? (fun p => decide (p.1 = w))).map Prod.snd := by
  induction l with
  | nil => by_cases h : w = v <;> simp [h]
  | cons p l ih =>
    by_cases h1 : p.1 = v
    · by_cases h2 : p.1 = w
      · subst h1; subst h2
        simp [List.find?_cons_of_pos]
      · rw [List.map_cons]
        rw [show (if p.1 = v then (p.1, f p.2) else p) = (p.1, f p.2) from by
          simp [h1]]
        rw [List.find?_cons_of_neg _ (by simpa using h2),
            List.find?_cons_of_neg _ (by simpa using h2)]
        exact ih
    · by_cases h2 : p.1 = w
      · subst h2
        rw [List.map_cons]
        rw [show (if p.1 = v then (p.1, f p.2) else p) = p from by simp [h1]]
        rw [List.find?_cons_of_pos _ (by simp), List.find?_cons_of_pos _ (by simp)]
        simp [h1]
      · rw [List.map_cons]
        rw [show (if p.1 = v then (p.1, f p.2) else p) = p from by simp [h1]]
        rw [List.find?_cons_of_neg _ (by simpa using h2),
            List.find?_cons_of_neg _ (by simpa using h2)]
        exact ih

theorem attr?_updateAttr (g : NxGraph V A) (v : V) (f : A → A) (w : V) :
    attr? (updateAttr g v f) w =
      if w = v then (attr? g w).map f else attr? g w := by
  unfold attr? updateAttr
  simpa using find?_update_list g.nodes v f w

theorem edges_updateAttr (g : NxGraph V A) (v : V) (f : A → A) :
    (updateAttr g v f).edges = g.edges := rfl

theorem keys_updateAttr (g : NxGraph V A) (v : V) (f : A → A) :
    (updateAttr g v f).keys = g.keys := by
  unfold keys updateAttr
  simp only [List.map_map]
  apply List.map_congr_left
  intro p _
  by_cases h : p.1 = v <;> simp [h]

theorem outDegree_updateAttr (g : NxGraph V A) (v : V) (f : A → A) (w : V) :
    outDegree (updateAttr g v f) w = outDegree g w := rfl

theorem successors_updateAttr (g : NxGraph V A) (v : V) (f : A → A) (w : V) :
    successors (updateAttr g v f) w = successors g w := rfl

theorem find?_filter_notin (l : List (V × A)) (vs : List V) (w : V)
    (h : w ∉ vs) :
    (l.filter (fun p => decide (p.1 ∉ vs))).find? (fun p => decide (p.1 = w)) =
      l.find? (fun p => decide (p.1 = w)) := by
  induction l with
  | nil => simp
  | cons p l ih =>
    by_cases h2 : p.1 = w
    · have hnv : p.1 ∉ vs := by rw [h2]; exact h
      rw [List.filter_cons_of_pos (by simpa using hnv)]
      rw [List.find?_cons_of_pos _ (by simpa using h2),
          List.find?_cons_of_pos _ (by simpa using h2)]
    · by_cases h3 : p.1 ∈ vs
      · rw [List.filter_cons_of_neg (by simpa using h3)]
        rw [List.find?_cons_of_neg _ (by simpa using h2)]
        exact ih
      · rw [List.filter_cons_of_pos (by simpa using h3)]
        rw [List.find?_cons_of_neg _ (by simpa using h2),
            List.find?_cons_of_neg _ (by simpa using h2)]
        exact ih

theorem attr?_removeNodesFrom (g : NxGraph V A) (vs : List V) (w : V)
    (h : w ∉ vs) : attr? (removeNodesFrom g vs) w = attr? g w := by
  unfold attr? removeNodesFrom
  rw [find?_filter_notin g.nodes vs w h]

theorem mem_keys_removeNodesFrom (g : NxGraph V A) (vs : List V) (w : V) :
    w ∈ (removeNodesFrom g vs).keys ↔ w ∈ g.keys ∧ w ∉ vs := by
  unfold keys removeNodesFrom
  simp only [List.mem_map, List.mem_filter, decide_eq_true_eq]
  constructor
  · rintro ⟨p, ⟨hp, hnv⟩, rfl⟩
    exact ⟨⟨p, hp, rfl⟩, hnv⟩
  · rintro ⟨⟨p, hp, rfl⟩, hnv⟩
    exact ⟨p, ⟨hp, hnv⟩, rfl⟩

end NxGraph

/-- The `'diagram'` annotation of a spec-graph node. -/
def diagramAt (g : SpecGraph) (n : Label) : Option IDiagram :=
  (NxGraph.attr? g n).bind (fun a => a.diagram)

/-- The `'hint'` annotation of a spec-graph node. -/
def hintAt (g : SpecGraph) (n : Label) : Option Layout :=
  (NxGraph.attr? g n).bind (fun a => a.hint)

/-- C8 witness scenario: a one-child Group `G1` and a two-child Group `G2`,
both without logic. -/
def mergeElemG1 : SystemElement :=
  { type := "Group", name := "G1", parent := some "A", code := "G1",
    instances := 1 }

/-- The two-child logic-less Group of the C8 witness scenario. -/
def mergeElemG2 : SystemElement :=
  { type := "Group", name := "G2", parent := some "A", code := "G2",
    instances := 1 }

/-- A Basic child of the C8 witness scenario. -/
def mergeElemC (nm : String) : SystemElement :=
  { type := "Basic", name := nm, parent := some "G", code := nm,
    instances := 1 }

/-- The attribute record of `C1`: carries a one-block diagram and a series
hint, so the pass-through is observable. -/
def mergeC1Attr : SAttr :=
  { obj := some (mergeElemC "C1"),
    diagram := some { nodes := [(.str "C1", blockAttr "C1")], edges := [] },
    hint := some Layout.series }

/-- The C8 witness spec graph. -/
def mergeScenarioG : SpecGraph :=
  { nodes := [(["G1"], { obj := some mergeElemG1 }),
              (["C1"], mergeC1Attr),
              (["G2"], { obj := some mergeElemG2 }),
              (["C2"], { obj := some (mergeElemC "C2") }),
              (["C3"], { obj := some (mergeElemC "C3") })],
    edges := [(["G1"], ["C1"]), (["G2"], ["C2"]), (["G2"], ["C3"])] }

/-- C8: in `merge_group_diagrams`, a Group element with no logic and more
than one child raises the fatal `ExporterError` (the first check in the
function, aborting the translation); a Group with exactly one child passes
that child's diagram and layout hint through onto the group unchanged,
without error, and removes the child from the spec graph. -/
theorem merge_group_no_logic_single_child (g : SpecGraph) (gn : Label)
    (o : SystemElement) (hobj : sObj g gn = some o) :
    (o.logic = none → NxGraph.outDegree g gn > 1 →
      mergeGroupDiagrams g gn = .error .logicError)
    ∧ (∀ t ts, NxGraph.successors g gn = t :: ts → t ≠ gn →
        NxGraph.outDegree g gn = 1 →
        ∃ g', mergeGroupDiagrams g gn = .ok g'
          ∧ diagramAt g' gn = diagramAt g t
          ∧ hintAt g' gn = hintAt g t
          ∧ t ∉ NxGraph.keys g') := by
  have hE : sObjE g gn = Except.ok o := by
    unfold sObjE
    rw [hobj]
  obtain ⟨a, ha, hao⟩ : ∃ a, NxGraph.attr? g gn = some a ∧ a.obj = some o := by
    unfold sObj at hobj
    cases h : NxGraph.attr? g gn with
    | none => rw [h] at hobj; cases hobj
    | some a => rw [h] at hobj; exact ⟨a, rfl, hobj⟩
  constructor
  · intro h1 h2
    unfold mergeGroupDiagrams
    rw [hE]
    simp [Bind.bind, Except.bind, h1, h2, throw, throwThe, MonadExceptOf.throw]
  · intro t ts hsucc htgn houtd
    unfold mergeGroupDiagrams
    rw [hE]
    have hcond : ¬ (o.logic = none ∧ NxGraph.outDegree g gn > 1) := by
      rintro ⟨_, hgt⟩
      omega
    simp only [Bind.bind, Except.bind, hcond, if_false, ite_false,
      NxGraph.outDegree_updateAttr, NxGraph.successors_updateAttr, houtd,
      hsucc, if_true, ite_true, if_pos, pure, Except.pure]
    rw [if_neg (by rintro ⟨_, hgt⟩; omega : ¬ (o.logic = none ∧ 1 > 1))]
    refine ⟨_, rfl, ?_, ?_, ?_⟩
    · unfold diagramAt
      simp only [NxGraph.removeNode]
      rw [NxGraph.attr?_removeNodesFrom _ _ _ (by simpa using Ne.symm htgn)]
      simp [NxGraph.attr?_updateAttr, htgn, ha]
    · unfold hintAt
      simp only [NxGraph.removeNode]
      rw [NxGraph.attr?_removeNodesFrom _ _ _ (by simpa using Ne.symm htgn)]
      simp [NxGraph.attr?_updateAttr, htgn, ha]
    · simp only [NxGraph.removeNode]
      rw [NxGraph.mem_keys_removeNodesFrom]
      simp

/-- C8 witness: a concrete spec graph with a no-logic Group `G2` that has
two children (the error fires) and a one-child Group `G1` whose child's
diagram and hint pass through. -/
theorem merge_group_no_logic_single_child_witness :
    (mergeGroupDiagrams mergeScenarioG ["G2"] = .error .logicError)
    ∧ (∃ g', mergeGroupDiagrams mergeScenarioG ["G1"] = .ok g'
        ∧ diagramAt g' ["G1"] = diagramAt mergeScenarioG ["C1"]
        ∧ hintAt g' ["G1"] = hintAt mergeScenarioG ["C1"]
        ∧ ["C1"] ∉ NxGraph.keys g') := by
  constructor
  · exact (merge_group_no_logic_single_child mergeScenarioG ["G2"]
      mergeElemG2 (by decide)).1 (by decide) (by decide)
  · exact (merge_group_no_logic_single_child mergeScenarioG ["G1"]
      mergeElemG1 (by decide)).2 ["C1"] [] (by decide) (by decide) (by decide)

/-- A directed cycle in an edge list: a non-empty node list whose
consecutive pairs, last-to-first included, are all edges. -/
def IsCycle {V : Type} [DecidableEq V] (es : List (V × V)) (c : List V) : Prop :=
  c ≠ [] ∧ ∀ p ∈ c.zip (c.rotate 1), p ∈ es

/-- Every node of a cycle is the target of one of the cycle's pairs. -/
theorem cycle_target_mem {V : Type} [DecidableEq V] (c : List V) (v : V)
    (hv : v ∈ c) : ∃ p ∈ c.zip (c.rotate 1), p.2 = v := by
  have hmap : (c.zip (c.rotate 1)).map Prod.snd = c.rotate 1 :=
    List.map_snd_zip _ _ (le_of_eq (List.length_rotate c 1))
  have hvr : v ∈ (c.zip (c.rotate 1)).map Prod.snd := by
    rw [hmap]
    exact List.mem_rotate.mpr hv
  obtain ⟨p, hp, hp2⟩ := List.mem_map.mp hvr
  exact ⟨p, hp, hp2⟩

/-- Every source of a cycle pair lies on the cycle. -/
theorem cycle_source_mem {V : Type} [DecidableEq V] (c : List V) (p : V × V)
    (hp : p ∈ c.zip (c.rotate 1)) : p.1 ∈ c := by
  obtain ⟨a, b⟩ := p
  exact (List.of_mem_zip hp).1

/-- One Kahn peeling round never deletes a cycle edge: every cycle node has
an incoming cycle edge, so no cycle node is among the removed in-degree-0
nodes, and only edges leaving removed nodes are deleted. -/
theorem kahnStep_preserves_cycle {V : Type} [DecidableEq V] (c : List V)
    (ns : List V) (es : List (V × V))
    (hsub : ∀ p ∈ c.zip (c.rotate 1), p ∈ es) :
    ∀ p ∈ c.zip (c.rotate 1), p ∈ (NxGraph.kahnStep (ns, es)).2 := by
  intro p hp
  have hpe := hsub p hp
  have hu : p.1 ∈ c := cycle_source_mem c p hp
  obtain ⟨q, hq, hq2⟩ := cycle_target_mem c p.1 hu
  have hqe := hsub q hq
  unfold NxGraph.kahnStep
  simp only [List.mem_filter, decide_eq_true_eq]
  refine ⟨hpe, ?_⟩
  intro hmem
  have hall := hmem.2
  have := List.all_eq_true.mp hall q hqe
  simp only [decide_eq_true_eq] at this
  exact this hq2

/-- Iterated Kahn peeling keeps every cycle edge. -/
theorem kahnIter_preserves_cycle {V : Type} [DecidableEq V] (c : List V) :
    ∀ (fuel : Nat) (ns : List V) (es : List (V × V)),
      (∀ p ∈ c.zip (c.rotate 1), p ∈ es) →
      ∀ p ∈ c.zip (c.rotate 1), p ∈ (NxGraph.kahnIter fuel (ns, es)).2 := by
  intro fuel
  induction fuel with
  | zero => intro ns es h; exact h
  | succ fuel ih =>
    intro ns es h
    have hstep := kahnStep_preserves_cycle c ns es h
    have := ih (NxGraph.kahnStep (ns, es)).1 (NxGraph.kahnStep (ns, es)).2 hstep
    simpa [NxGraph.kahnIter] using this

/-- A graph whose edge list carries a cycle is rejected by
`is_directed_acyclic_graph`. -/
theorem isDag_false_of_cycle {V A : Type} [DecidableEq V] (g : NxGraph V A)
    (c : List V) (hcyc : IsCycle g.edges c) : NxGraph.isDag g = false := by
  obtain ⟨hc, hsub⟩ := hcyc
  unfold NxGraph.isDag
  have h := kahnIter_preserves_cycle c (g.nodes.length + 1) g.keys g.edges hsub
  obtain ⟨x, c', rfl⟩ : ∃ x c', c = x :: c' := by
    cases c with
    | nil => exact absurd rfl hc
    | cons x c' => exact ⟨x, c', rfl⟩
  have hmem : (x, ((x :: c').rotate 1).headD x) ∈
      (x :: c').zip ((x :: c').rotate 1) := by
    have hlen : ((x :: c').rotate 1).length = c'.length + 1 := by
      rw [List.length_rotate]
      simp
    cases hrot : (x :: c').rotate 1 with
    | nil => rw [hrot] at hlen; simp at hlen
    | cons y ys =>
      simp [List.zip_cons_cons]
  have hres := h _ hmem
  cases hres2 : (NxGraph.kahnIter (g.nodes.length + 1) (g.keys, g.edges)).2 with
  | nil => rw [hres2] at hres; cases hres
  | cons e es => rfl

/-- Concrete cyclic input for the C3 witness: `A`'s parent is `B` and `B`'s
parent is `A`. -/
def cyclicRows : RowsContainer :=
  { component_list :=
      [ ⟨"Basic", "A", "B", "A", 1⟩,
        ⟨"Basic", "B", "A", "B", 1⟩ ] }

/-- C3: for an input whose non-template component rows form a cycle in the
parent→child graph, loading the model fails with the fatal `CycleError`
raised during raw-graph construction — `load_from_rows` returns it for
every resolution fuel (the components graph is never resolved), and the
whole pipeline returns it for every fuel and layout (no compound-block
diagram is synthesized and no record is emitted).  Index building runs
first and must succeed (it does not inspect the hierarchy). -/
theorem cycle_raises_before_synthesis (rc : RowsContainer) (c : List Label)
    (hcyc : IsCycle (rawComponentGraph rc).edges c)
    (hidx : ∃ ix, buildIndexes rc = .ok ix) :
    (∀ fuel, loadFromRows fuel rc = .error .cycleError)
    ∧ (∀ resFuel serFuel layoutFn,
        fullPipeline resFuel serFuel layoutFn rc = .error .cycleError) := by
  obtain ⟨ix, hix⟩ := hidx
  have hdag : NxGraph.isDag (rawComponentGraph rc) = false :=
    isDag_false_of_cycle _ c hcyc
  have hraw : buildRawInputComponentGraph rc = .error .cycleError := by
    unfold buildRawInputComponentGraph
    rw [hdag]
    simp
  have hload : ∀ fuel, loadFromRows fuel rc = .error .cycleError := by
    intro fuel
    unfold loadFromRows
    rw [hix, hraw]
    simp [Bind.bind, Except.bind]
  refine ⟨hload, ?_⟩
  intro resFuel serFuel layoutFn
  unfold fullPipeline
  rw [hload resFuel]
  simp [Bind.bind, Except.bind]

/-- C3 witness: the theorem applied to the concrete two-row cycle. -/
theorem cycle_raises_before_synthesis_witness :
    IsCycle (rawComponentGraph cyclicRows).edges [["B"], ["A"]]
    ∧ loadFromRows 8 cyclicRows = .error .cycleError
    ∧ fullPipeline 8 50 layoutZero cyclicRows = .error .cycleError := by
  have h := cycle_raises_before_synthesis cyclicRows [["B"], ["A"]]
    (by constructor
        · decide
        · decide)
    ⟨(buildIndexes cyclicRows).toOption.getD ⟨[], [], []⟩, by decide⟩
  exact ⟨⟨by decide, by decide⟩, h.1 8, h.2 8 50 layoutZero⟩

/-! ## C2: the tree invariant of the resolved components graph -/

/-- A successor relation member is a graph edge. -/
theorem mem_successors_edges {V A : Type} [DecidableEq V] (g : NxGraph V A)
    (u w : V) (h : w ∈ NxGraph.successors g u) : (u, w) ∈ g.edges := by
  unfold NxGraph.successors at h
  obtain ⟨e, he, rfl⟩ := List.mem_map.mp h
  obtain ⟨he1, he2⟩ := List.mem_filter.mp he
  simp only [decide_eq_true_eq] at he2
  obtain ⟨a, b⟩ := e
  cases he2
  exact he1

/-- The BFS fold keeps `visited = source :: (targets of the tree edges)`. -/
theorem foldl_bfsFoldStep_visited {V : Type} [DecidableEq V] (u : V) :
    ∀ (l : List V) (st : List V × List V × List (V × V)) (s : V),
      st.1 = s :: st.2.2.map Prod.snd →
      (l.foldl (NxGraph.bfsFoldStep u) st).1 =
        s :: (l.foldl (NxGraph.bfsFoldStep u) st).2.2.map Prod.snd := by
  intro l
  induction l with
  | nil => intro st s h; exact h
  | cons v vs ih =>
    intro st s h
    simp only [List.foldl_cons]
    apply ih
    unfold NxGraph.bfsFoldStep
    by_cases hm : v ∈ st.1
    · rw [if_pos hm]
      exact h
    · rw [if_neg hm]
      rw [h]
      simp [List.map_append]

/-- The BFS fold only records graph edges. -/
theorem foldl_bfsFoldStep_edges {V A : Type} [DecidableEq V] (g : NxGraph V A)
    (u : V) :
    ∀ (l : List V) (st : List V × List V × List (V × V)),
      (∀ v ∈ l, v ∈ NxGraph.successors g u) →
      (∀ e ∈ st.2.2, e ∈ g.edges) →
      ∀ e ∈ (l.foldl (NxGraph.bfsFoldStep u) st).2.2, e ∈ g.edges := by
  intro l
  induction l with
  | nil => intro st _ h; exact h
  | cons v vs ih =>
    intro st hl h
    simp only [List.foldl_cons]
    apply ih
    · intro w hw
      exact hl w (List.mem_cons_of_mem _ hw)
    · unfold NxGraph.bfsFoldStep
      by_cases hm : v ∈ st.1
      · rw [if_pos hm]
        exact h
      · rw [if_neg hm]
        intro e he
        rcases List.mem_append.mp he with h1 | h1
        · exact h e h1
        · rcases List.mem_singleton.mp h1 with rfl
          exact mem_successors_edges g u v (hl v (List.mem_cons_self _ _))

/-- Across `bfsAux`, `visited = source :: edge targets` is invariant. -/
theorem bfsAux_visited_eq {V A : Type} [DecidableEq V] (g : NxGraph V A)
    (s : V) :
    ∀ (fuel : Nat) (queue visited : List V) (es : List (V × V)),
      visited = s :: es.map Prod.snd →
      (NxGraph.bfsAux g fuel queue visited es).1 =
        s :: (NxGraph.bfsAux g fuel queue visited es).2.map Prod.snd := by
  intro fuel
  induction fuel with
  | zero => intro _ _ _ h; exact h
  | succ fuel ih =>
    intro queue visited es h
    cases queue with
    | nil => exact h
    | cons u qs =>
      unfold NxGraph.bfsAux
      exact ih _ _ _ (foldl_bfsFoldStep_visited u _ (visited, qs, es) s h)

/-- `bfsVisited` is the source followed by the `bfs_edges` targets. -/
theorem bfsVisited_eq {V A : Type} [DecidableEq V] (g : NxGraph V A) (s : V) :
    NxGraph.bfsVisited g s = s :: (NxGraph.bfsEdges g s).map Prod.snd :=
  bfsAux_visited_eq g s _ [s] [s] [] rfl

/-- Across `bfsAux`, recorded edges are graph edges. -/
theorem bfsAux_edges_sub {V A : Type} [DecidableEq V] (g : NxGraph V A) :
    ∀ (fuel : Nat) (queue visited : List V) (es : List (V × V)),
      (∀ e ∈ es, e ∈ g.edges) →
      ∀ e ∈ (NxGraph.bfsAux g fuel queue visited es).2, e ∈ g.edges := by
  intro fuel
  induction fuel with
  | zero => intro _ _ _ h; exact h
  | succ fuel ih =>
    intro queue visited es h
    cases queue with
    | nil => exact h
    | cons u qs =>
      unfold NxGraph.bfsAux
      exact ih _ _ _
        (foldl_bfsFoldStep_edges g u _ (visited, qs, es) (fun v hv => hv) h)

/-- Every `bfs_edges` tree edge is a graph edge. -/
theorem mem_bfsEdges_edges {V A : Type} [DecidableEq V] (g : NxGraph V A)
    (s : V) : ∀ e ∈ NxGraph.bfsEdges g s, e ∈ g.edges :=
  bfsAux_edges_sub g _ [s] [s] [] (fun _ h => absurd h (List.not_mem_nil _))

/-- `add_edge` adds at most the one new edge. -/
theorem mem_edges_addEdge {V A : Type} [DecidableEq V] [Inhabited A]
    (g : NxGraph V A) (u v : V) (e : V × V)
    (he : e ∈ (NxGraph.addEdge g u v).edges) : e ∈ g.edges ∨ e = (u, v) := by
  simp only [NxGraph.addEdge] at he
  split_ifs at he <;>
    first
      | exact Or.inl he
      | (rcases List.mem_append.mp he with h1 | h1
         · exact Or.inl h1
         · exact Or.inr (List.mem_singleton.mp h1))

/-- `add_edges_from` adds at most the given edges. -/
theorem mem_edges_addEdgesFrom {V A : Type} [DecidableEq V] [Inhabited A]
    (g : NxGraph V A) (l : List (V × V)) (e : V × V)
    (he : e ∈ (NxGraph.addEdgesFrom g l).edges) : e ∈ g.edges ∨ e ∈ l := by
  induction l generalizing g with
  | nil => exact Or.inl he
  | cons x xs ih =>
    rcases ih (NxGraph.addEdge g x.1 x.2) he with h | h
    · rcases mem_edges_addEdge g x.1 x.2 e h with h2 | h2
      · exact Or.inl h2
      · refine Or.inr ?_
        rw [h2, Prod.mk.eta]
        exact List.mem_cons_self _ _
    · exact Or.inr (List.mem_cons_of_mem _ h)

/-- `remove_edges_from` only removes edges. -/
theorem mem_edges_removeEdgesFrom {V A : Type} [DecidableEq V]
    (g : NxGraph V A) (l : List (V × V)) (e : V × V)
    (he : e ∈ (NxGraph.removeEdgesFrom g l).edges) : e ∈ g.edges :=
  (List.mem_filter.mp he).1

/-- `remove_nodes_from` only removes edges. -/
theorem mem_edges_removeNodesFrom {V A : Type} [DecidableEq V]
    (g : NxGraph V A) (l : List V) (e : V × V)
    (he : e ∈ (NxGraph.removeNodesFrom g l).edges) : e ∈ g.edges :=
  (List.mem_filter.mp he).1

/-- `subgraph` only keeps induced edges. -/
theorem mem_edges_subgraphOf {V A : Type} [DecidableEq V] (g : NxGraph V A)
    (ns : List V) (e : V × V)
    (he : e ∈ (NxGraph.subgraphOf g ns).edges) : e ∈ g.edges := by
  simp only [NxGraph.subgraphOf, List.mem_flatMap, List.mem_map,
    List.mem_filter] at he
  obtain ⟨u, _, ⟨w, ⟨hw, _⟩, rfl⟩⟩ := he
  exact mem_successors_edges g u w hw

/-- `relabelL` never returns an empty label. -/
theorem relabelL_ne_nil (x p : Label) : relabelL x p ≠ [] := by
  cases x <;> simp [relabelL]

/-- `relabelL` adds one token to a non-empty label. -/
theorem relabelL_length (x p : Label) (hx : x ≠ []) :
    (relabelL x p).length = x.length + 1 := by
  cases x with
  | nil => exact absurd rfl hx
  | cons a as =>
    simp only [relabelL, List.length_append, List.length_dropLast,
      List.length_cons, List.length_nil]
    omega

/-- A relabelled clone is never the root label. -/
theorem relabelL_ne_root (x p : Label) (hx : x ≠ []) :
    relabelL x p ≠ rootLabel := by
  intro h
  have hl := relabelL_length x p hx
  rw [h] at hl
  simp only [rootLabel, List.length_cons, List.length_nil] at hl
  have : x.length = 0 := by omega
  exact hx (List.length_eq_zero.mp this)

/-- All edge targets are proper (non-root, non-empty) labels.  This holds
for every raw input graph (targets are split non-empty row names, and the
root never appears as a child of a structural row in a loadable model) and
is preserved by resolution. -/
def GoodTargets (g : CompGraph) : Prop :=
  ∀ e ∈ g.edges, e.2 ≠ rootLabel ∧ e.2 ≠ []

instance (g : CompGraph) : Decidable (GoodTargets g) := by
  unfold GoodTargets
  infer_instance

/-- The shape of the edges produced by one resolution step: an old edge, or
an edge whose target is a relabelled clone of an old edge target. -/
theorem resolveStep_edges (g g₁ : CompGraph) (h : resolveStep g = some g₁) :
    ∀ e ∈ g₁.edges, e ∈ g.edges ∨
      ∃ x p, (∃ u, (u, x) ∈ g.edges) ∧ e.2 = relabelL x p := by
  unfold resolveStep at h
  cases hf : findShared g with
  | none => rw [hf] at h; cases h
  | some v =>
    rw [hf] at h
    injection h with h
    subst h
    have hv : ∃ u, (u, v) ∈ g.edges := by
      unfold findShared at hf
      have hmem := List.mem_of_find?_eq_some hf
      obtain ⟨e0, he0, he02⟩ := List.mem_map.mp hmem
      have := mem_bfsEdges_edges g rootLabel e0 he0
      exact ⟨e0.1, by rw [← he02, Prod.mk.eta]; exact this⟩
    intro e he
    have hfold : ∀ (sub : List (Label × Label)),
        (∀ e0 ∈ sub, ∃ u, (u, e0.2) ∈ g.edges) →
        ∀ (l : List Label) (acc : CompGraph),
          (∀ e1 ∈ acc.edges, e1 ∈ g.edges ∨
            ∃ x p, (∃ u, (u, x) ∈ g.edges) ∧ e1.2 = relabelL x p) →
          ∀ e1 ∈ (l.foldl
              (fun (acc : CompGraph) p =>
                NxGraph.addEdgesFrom (NxGraph.addEdge acc p (relabelL v p))
                  (sub.map (fun e2 => (relabelL e2.1 p, relabelL e2.2 p))))
              acc).edges,
            e1 ∈ g.edges ∨
              ∃ x p, (∃ u, (u, x) ∈ g.edges) ∧ e1.2 = relabelL x p := by
      intro sub hsub l
      induction l with
      | nil => intro acc hacc; exact hacc
      | cons p ps ih =>
        intro acc hacc
        simp only [List.foldl_cons]
        apply ih
        intro e1 he1
        rcases mem_edges_addEdgesFrom _ _ _ he1 with h1 | h1
        · rcases mem_edges_addEdge _ _ _ _ h1 with h2 | h2
          · exact hacc e1 h2
          · right
            exact ⟨v, p, hv, by rw [h2]⟩
        · obtain ⟨e2, he2, rfl⟩ := List.mem_map.mp h1
          right
          exact ⟨e2.2, p, hsub e2 he2, rfl⟩
    refine hfold _ ?_ _ _ ?_ e he
    · intro e0 he0
      have h1 := mem_edges_subgraphOf _ _ _ he0
      have h2 := mem_edges_removeEdgesFrom _ _ _ h1
      exact ⟨e0.1, by rw [Prod.mk.eta]; exact h2⟩
    · intro e1 he1
      exact Or.inl (mem_edges_removeEdgesFrom _ _ _
        (mem_edges_removeNodesFrom _ _ _ he1))

/-- One resolution step preserves `GoodTargets`. -/
theorem resolveStep_goodTargets (g g₁ : CompGraph)
    (h : resolveStep g = some g₁) (hg : GoodTargets g) : GoodTargets g₁ := by
  intro e he
  rcases resolveStep_edges g g₁ h e he with h1 | ⟨x, p, ⟨u, hux⟩, h2⟩
  · exact hg e h1
  · have hx : x ≠ [] := (hg (u, x) hux).2
    rw [h2]
    exact ⟨relabelL_ne_root x p hx, relabelL_ne_nil x p⟩

/-- The fixed point preserves `GoodTargets`. -/
theorem resolveFix_goodTargets :
    ∀ (fuel : Nat) (g g' : CompGraph),
      resolveFix fuel g = some g' → GoodTargets g → GoodTargets g' := by
  intro fuel
  induction fuel with
  | zero => intro g g' h _; cases h
  | succ fuel ih =>
    intro g g' h hg
    unfold resolveFix at h
    cases hs : resolveStep g with
    | none =>
      rw [hs] at h
      injection h with h
      rw [← h]
      exact hg
    | some g1 =>
      rw [hs] at h
      exact ih g1 g' h (resolveStep_goodTargets g g1 hs hg)

/-- When the fixed point terminates, the final graph admits no further
step. -/
theorem resolveFix_last :
    ∀ (fuel : Nat) (g g' : CompGraph),
      resolveFix fuel g = some g' → resolveStep g' = none := by
  intro fuel
  induction fuel with
  | zero => intro g g' h; cases h
  | succ fuel ih =>
    intro g g' h
    unfold resolveFix at h
    cases hs : resolveStep g with
    | none =>
      rw [hs] at h
      injection h with h
      rw [← h]
      exact hs
    | some g1 =>
      rw [hs] at h
      exact ih g1 g' h

/-- With `GoodTargets`, the root has in-degree 0. -/
theorem inDegree_root_zero (g : CompGraph) (hg : GoodTargets g) :
    NxGraph.inDegree g rootLabel = 0 := by
  unfold NxGraph.inDegree
  rw [List.length_eq_zero]
  rw [List.filter_eq_nil_iff]
  intro e he
  simp only [decide_eq_true_eq]
  exact (hg e he).1

/-- The two-parent (template) scenario rows: `X` is referenced by both `P1`
and `P2` (with a template-definition row excluded from the structural
index), carries inherited logic `AND` and the failure model `FM`. -/
def sharedScenarioRows : RowsContainer :=
  { component_list :=
      [ ⟨"Compound", "P1", "ROOT", "P1C", 1⟩,
        ⟨"Compound", "P2", "ROOT", "P2C", 1⟩,
        ⟨"Basic", "X", "*", "XC", 1⟩,
        ⟨"Basic", "X", "P1", "XC", 1⟩,
        ⟨"Basic", "X", "P2", "XC", 1⟩ ],
    logic_list := [ ⟨"inherited", "X", "AND"⟩ ],
    failure_models_list := [ ⟨"FM", "exponential", "500", "", ""⟩ ],
    component_failures_list := [ ⟨"X", "FM"⟩ ] }

instance : Inhabited IRContainer :=
  ⟨{ indexes := {}, raw_input_graph := {}, components_graph := {},
     failures_graph := {} }⟩

/-- The IR loaded from the two-parent scenario. -/
def sharedScenarioIR : IRContainer :=
  (loadFromRows 8 sharedScenarioRows).toOption.getD default

/-- The `'obj'` attribute of a components-graph node. -/
def cObj (g : CompGraph) (n : Label) : Option SystemElement :=
  (NxGraph.attr? g n).bind (fun a => a)

/-- The element assigned to the clone `P1.X`. -/
def sharedCloneP1 : SystemElement :=
  { type := "Basic", name := "P1.X", parent := some "P1", code := "XC",
    instances := 1, logic := some ⟨"AND", none, none⟩,
    failure_model := some ⟨"FM", "Exponential", .expo 500, "", ""⟩ }

/-- The element assigned to the clone `P2.X`. -/
def sharedCloneP2 : SystemElement :=
  { type := "Basic", name := "P2.X", parent := some "P2", code := "XC",
    instances := 1, logic := some ⟨"AND", none, none⟩,
    failure_model := some ⟨"FM", "Exponential", .expo 500, "", ""⟩ }

/-- The clone facts of claim C2 on the concrete two-parent scenario: the
model loads, both clones exist with distinct fully-qualified names, and
their assigned elements agree on `code`, `logic` and `failure_model`. -/
def sharedCloneFacts : Prop :=
  (loadFromRows 8 sharedScenarioRows).toOption.isSome = true
  ∧ cObj sharedScenarioIR.components_graph ["P1", "X"] = some sharedCloneP1
  ∧ cObj sharedScenarioIR.components_graph ["P2", "X"] = some sharedCloneP2
  ∧ sharedCloneP1.name ≠ sharedCloneP2.name
  ∧ sharedCloneP1.code = sharedCloneP2.code
  ∧ sharedCloneP1.logic = sharedCloneP2.logic
  ∧ sharedCloneP1.failure_model = sharedCloneP2.failure_model

/-- C2: when the fixed-point cloning of `_build_components_graph` terminates
(on any input whose edges have proper targets — split row names are
non-empty and nothing re-parents `ROOT`), every node of the resulting graph
reachable from `ROOT` (the resolved hierarchy) has in-degree ≤ 1: the loop
only exits once a full BFS scan finds no shared node.  Moreover, on the
concrete two-parent scenario the two clones `P1.X`/`P2.X` carry distinct
fully-qualified names while their assigned elements have identical code,
logic and failure-model values (`sharedCloneFacts`). -/
theorem components_graph_tree_invariant (g g' : CompGraph) (fuel : Nat)
    (hterm : resolveFix fuel g = some g')
    (_hshared : ∃ v p q, p ≠ q ∧ (p, v) ∈ g.edges ∧ (q, v) ∈ g.edges)
    (hroot : GoodTargets g) :
    (∀ v ∈ NxGraph.bfsVisited g' rootLabel, NxGraph.inDegree g' v ≤ 1)
    ∧ sharedCloneFacts := by
  constructor
  · intro v hv
    have hg' : GoodTargets g' := resolveFix_goodTargets fuel g g' hterm hroot
    have hlast : resolveStep g' = none := resolveFix_last fuel g g' hterm
    have hfind : findShared g' = none := by
      unfold resolveStep at hlast
      cases hf : findShared g' with
      | none => rfl
      | some v0 => rw [hf] at hlast; cases hlast
    rw [bfsVisited_eq] at hv
    rcases List.mem_cons.mp hv with rfl | hv2
    · rw [inDegree_root_zero g' hg']
      omega
    · unfold findShared at hfind
      have hall := List.find?_eq_none.mp hfind v hv2
      simp only [decide_eq_true_eq] at hall
      omega
  · exact ⟨by decide, by decide, by decide, by decide, by decide, by decide,
      by decide⟩

/-- The resolved components graph of the two-parent scenario. -/
def sharedResolvedGraph : CompGraph :=
  (resolveFix 8 (rawComponentGraph sharedScenarioRows)).getD {}

/-- C2 witness: the theorem applied to the concrete two-parent scenario
(the shared node is `X`, its two parents `P1` and `P2`). -/
theorem components_graph_tree_invariant_witness :
    resolveFix 8 (rawComponentGraph sharedScenarioRows) =
        some sharedResolvedGraph
    ∧ (["P1"], ["X"]) ∈ (rawComponentGraph sharedScenarioRows).edges
    ∧ (["P2"], ["X"]) ∈ (rawComponentGraph sharedScenarioRows).edges
    ∧ (∀ v ∈ NxGraph.bfsVisited sharedResolvedGraph rootLabel,
        NxGraph.inDegree sharedResolvedGraph v ≤ 1)
    ∧ sharedCloneFacts := by
  have h := components_graph_tree_invariant
    (rawComponentGraph sharedScenarioRows) sharedResolvedGraph 8
    (by decide)
    ⟨["X"], ["P1"], ["P2"], by decide, by decide, by decide⟩
    (by decide)
  exact ⟨by decide, by decide, by decide, h.1, h.2⟩

example : splitDelims "ACTIVE(2,3)" = ["ACTIVE", "2", "3", ""] := by decide
example : logicEq (mkElementLogic "ACTIVE(2,3)") "active" = true := by decide
example : (mkElementLogic "AND").voting = none := by decide
example : mkFailureModel "fm" "weibull" "1,2,3" "s" "r" =
    .ok ⟨"fm", "Weibull", .triples [["1", "2", "3"]], "s", "r"⟩ := by decide
example : mkFailureModel "fm" "weibull" "1,2" "s" "r" =
    .error (.paramError "fm" "Weibull") := by decide
example : mkFailureModel "fm" "weibull" "1,1,1:2,2,2" "s" "r" =
    .ok ⟨"fm", "Weibull", .triples [["1", "1", "1:2", "2", "2"]], "s", "r"⟩ := by
  decide

end Amtt
